import Mathlib

/-!
# Pong match simulator (`src/script.js`): embedding and checked properties

The script keeps its whole state in closure variables and advances it with `update()`,
`resetBall()`, a pointer handler, two key handlers, a restart handler and a serve timer.
Here every handler is a pure function on an explicit `Game` record.

Modelling conventions:

* JavaScript numbers are modelled by an arbitrary linearly ordered field `α`; the decimal
  literals `4.2`, `0.5` and `1.05` are the exact fractions `21/5`, `1/2` and `21/20`.
  Definitions are polymorphic and computable, so they run on `ℚ`; statements that need
  the meaning of `Math.sqrt`, `Math.cos`, `Math.sin` and `Math.PI` are made over `ℝ`.
* The `Math` object is passed explicitly as a `JSMath` record and the value returned by
  `Math.random()` as the argument `u`.
* `canvas.width` and `canvas.height` are the `Field` record `F`.
* Properties of the object literals that the script never assigns (`paddle.width`,
  `paddle.height`, `paddle.speed`, `ball.r`, `paddle.player.x`, `paddle.computer.x`)
  are constants.
* The browser timer queue is the list `timers` of armed handles; `serveTimeout` is the
  script variable holding the last handle.
* `draw()` and the scoreboard text nodes do not feed back into the state and are omitted.
-/

namespace Pong

/-- Canvas size: `W = canvas.width`, `H = canvas.height`. -/
structure Field (α : Type) where
  W : α
  H : α

/-- The part of the JavaScript `Math` object the script uses. -/
structure JSMath (α : Type) where
  sqrt : α → α
  cos : α → α
  sin : α → α
  PI : α

/-- The mutable part of `paddle.player` / `paddle.computer`. -/
structure Side (α : Type) where
  y : α

/-- The object `paddle` (its mutable part). -/
structure Paddle (α : Type) where
  player : Side α
  computer : Side α

/-- The object `ball` (its mutable part; `ball.r` is the constant `ballR`). -/
structure Ball (α : Type) where
  x : α
  y : α
  speed : α
  vx : α
  vy : α

/-- The object `score`. -/
structure Score where
  player : Nat
  computer : Nat

/-- All closure variables of the script, plus the browser's queue of armed timers. -/
structure Game (α : Type) where
  paddle : Paddle α
  ball : Ball α
  score : Score
  upPressed : Bool
  downPressed : Bool
  isServing : Bool
  serveTimeout : Option Nat
  timers : List Nat
  nextTimer : Nat

section Defs

variable {α : Type} [LinearOrderedField α]

/-- Constant `paddle.width`. -/
def paddleWidth : α := 12

/-- Constant `paddle.height`. -/
def paddleHeight : α := 110

/-- Constant `paddle.speed`. -/
def paddleSpeed : α := 6

/-- Constant `ball.r`. -/
def ballR : α := 9

/-- Constant `paddle.player.x`. -/
def playerX : α := 12

/-- Constant `paddle.computer.x`, that is `W - 12 - 12`. -/
def computerX (F : Field α) : α := F.W - 12 - 12

/-- Source `clamp(v, a, b)`: `Math.max(a, Math.min(b, v))`. -/
def clamp (v a b : α) : α := max a (min b v)

/-- Browser `clearTimeout(h)`: disarm handle `h`; `null` and unknown handles are ignored. -/
def clearTimeout (h : Option Nat) (timers : List Nat) : List Nat :=
  match h with
  | none => timers
  | some i => timers.filter (fun j => j != i)

/-- Source `resetBall(toPlayer)`; `u` is the value of `Math.random()`. -/
def resetBall (F : Field α) (M : JSMath α) (u : α) (toPlayer : Bool) (s : Game α) : Game α :=
  let angle : α := (u * M.PI / 4) - (M.PI / 8)
  let dir : α := if toPlayer then -1 else 1
  { s with
    ball :=
      { x := F.W / 2
        y := F.H / 2
        speed := 5
        vx := dir * 5 * M.cos angle
        vy := 5 * M.sin angle }
    isServing := true
    serveTimeout := some s.nextTimer
    timers := clearTimeout s.serveTimeout s.timers ++ [s.nextTimer]
    nextTimer := s.nextTimer + 1 }

/-- The callback armed by `resetBall`, run by the browser for handle `i` if still armed. -/
def serveEnd (i : Nat) (s : Game α) : Game α :=
  if i ∈ s.timers then
    { s with isServing := false, timers := s.timers.filter (fun j => j != i) }
  else s

/-- Source `circleRectCollision(cx, cy, r, rx, ry, rw, rh)`. -/
def circleRectCollision (cx cy r rx ry rw rh : α) : Bool :=
  let closestX := clamp cx rx (rx + rw)
  let closestY := clamp cy ry (ry + rh)
  let dx := cx - closestX
  let dy := cy - closestY
  decide (dx * dx + dy * dy ≤ r * r)

/-- Lines 97-104 of `update`: key movement of the player paddle, then the clamp. -/
def movePlayer (F : Field α) (s : Game α) : Game α :=
  let y1 : α :=
    if s.upPressed then s.paddle.player.y - paddleSpeed
    else if s.downPressed then s.paddle.player.y + paddleSpeed
    else s.paddle.player.y
  { s with paddle := { s.paddle with player := ⟨clamp y1 0 (F.H - paddleHeight)⟩ } }

/-- Constant `compSpeed` = 4.2. -/
def compSpeed : α := 21 / 5

/-- Lines 107-114 of `update`: the computer paddle follows `ball.y`, then the clamp. -/
def moveComputer (F : Field α) (s : Game α) : Game α :=
  let y1 : α :=
    if s.paddle.computer.y + paddleHeight / 2 < s.ball.y - 6 then s.paddle.computer.y + compSpeed
    else if s.paddle.computer.y + paddleHeight / 2 > s.ball.y + 6 then
      s.paddle.computer.y - compSpeed
    else s.paddle.computer.y
  { s with paddle := { s.paddle with computer := ⟨clamp y1 0 (F.H - paddleHeight)⟩ } }

/-- Lines 118-120 of `update`: the serving branch. -/
def servePin (F : Field α) (s : Game α) : Game α :=
  let x1 : α :=
    if s.ball.vx < 0 then playerX + paddleWidth + ballR + 6
    else computerX F - ballR - 6
  { s with ball := { s.ball with x := x1, y := s.paddle.player.y + paddleHeight / 2 } }

/-- Lines 126-127 of `update`: integrate the velocity. -/
def moveBall (s : Game α) : Game α :=
  { s with ball := { s.ball with x := s.ball.x + s.ball.vx, y := s.ball.y + s.ball.vy } }

/-- Lines 130-136 of `update`: top and bottom wall. -/
def wallBounce (F : Field α) (s : Game α) : Game α :=
  if s.ball.y - ballR ≤ 0 then
    { s with ball := { s.ball with y := ballR, vy := -s.ball.vy } }
  else if s.ball.y + ballR ≥ F.H then
    { s with ball := { s.ball with y := F.H - ballR, vy := -s.ball.vy } }
  else s

/-- Line 143: the collision test against `playerRect`. -/
def hitsPlayer (s : Game α) : Bool :=
  circleRectCollision s.ball.x s.ball.y ballR playerX s.paddle.player.y paddleWidth paddleHeight

/-- Line 160: the collision test against `computerRect`. -/
def hitsComputer (F : Field α) (s : Game α) : Bool :=
  circleRectCollision s.ball.x s.ball.y ballR (computerX F) s.paddle.computer.y
    paddleWidth paddleHeight

/-- Lines 147-148 and 162-163: `normalized` for a paddle whose top edge is at `py`. -/
def normalized (ballY py : α) : α := (ballY - (py + paddleHeight / 2)) / (paddleHeight / 2)

/-- Lines 149-150 and 164-165: `bounceAngle = normalized * (Math.PI / 3)`. -/
def bounceAngle (M : JSMath α) (ballY py : α) : α := normalized ballY py * (M.PI / 3)

/-- Lines 151 and 166: the local `speed` of a bounce. -/
def bounceSpeed (M : JSMath α) (b : Ball α) : α :=
  min (M.sqrt (b.vx * b.vx + b.vy * b.vy) * (21 / 20)) 12

/-- Lines 143-157 of `update`: bounce off the player paddle. -/
def playerBounce (M : JSMath α) (s : Game α) : Game α :=
  if hitsPlayer s then
    let angle := bounceAngle M s.ball.y s.paddle.player.y
    let speed := bounceSpeed M s.ball
    let vx1 := M.cos angle * speed
    let vx2 := if vx1 < 0 then -vx1 else vx1
    let vx3 := if |vx2| < 2 then 2 else vx2
    { s with ball :=
        { s.ball with
          x := playerX + paddleWidth + ballR + 1 / 2
          vx := vx3
          vy := M.sin angle * speed } }
  else s

/-- Lines 160-171 of `update`: bounce off the computer paddle. -/
def computerBounce (F : Field α) (M : JSMath α) (s : Game α) : Game α :=
  if hitsComputer F s then
    let angle := bounceAngle M s.ball.y s.paddle.computer.y
    let speed := bounceSpeed M s.ball
    let vx1 := -M.cos angle * speed
    let vx2 := if vx1 > 0 then -vx1 else vx1
    let vx3 := if |vx2| < 2 then -2 else vx2
    { s with ball :=
        { s.ball with
          x := computerX F - ballR - 1 / 2
          vx := vx3
          vy := M.sin angle * speed } }
  else s

/-- Line 174: the condition under which the computer scores. -/
def computerScores (s : Game α) : Bool := decide (s.ball.x - ballR ≤ 0)

/-- Line 179: the condition tested for the player once the computer did not score. -/
def playerScores (F : Field α) (s : Game α) : Bool := decide (s.ball.x + ballR ≥ F.W)

/-- Lines 174-184 of `update`: scoring and re-arming of the serve. -/
def scoring (F : Field α) (M : JSMath α) (u : α) (s : Game α) : Game α :=
  if computerScores s then
    resetBall F M u false { s with score := { s.score with computer := s.score.computer + 1 } }
  else if playerScores F s then
    resetBall F M u true { s with score := { s.score with player := s.score.player + 1 } }
  else s

/-- The state of a non-serving tick just before the paddle tests (lines 97-136). -/
def beforePaddles (F : Field α) (s : Game α) : Game α :=
  wallBounce F (moveBall (moveComputer F (movePlayer F s)))

/-- The state of a non-serving tick just before the scoring test (lines 97-171). -/
def beforeScoring (F : Field α) (M : JSMath α) (s : Game α) : Game α :=
  computerBounce F M (playerBounce M (beforePaddles F s))

/-- Source `update()`; `u` is the value `Math.random()` returns if `resetBall` runs. -/
def update (F : Field α) (M : JSMath α) (u : α) (s : Game α) : Game α :=
  let s1 := moveComputer F (movePlayer F s)
  if s1.isServing then servePin F s1
  else scoring F M u (beforeScoring F M s)

/-- The `mousemove` handler; `y` is `e.clientY - rect.top`. -/
def mousemove (F : Field α) (y : α) (s : Game α) : Game α :=
  { s with
    paddle := { s.paddle with player := ⟨clamp (y - paddleHeight / 2) 0 (F.H - paddleHeight)⟩ } }

/-- Keys the handlers distinguish. -/
inductive Key where
  | ArrowUp
  | ArrowDown
  | other

/-- The `keydown` handler. -/
def keydown (k : Key) (s : Game α) : Game α :=
  match k with
  | Key.ArrowUp => { s with upPressed := true }
  | Key.ArrowDown => { s with downPressed := true }
  | Key.other => s

/-- The `keyup` handler. -/
def keyup (k : Key) (s : Game α) : Game α :=
  match k with
  | Key.ArrowUp => { s with upPressed := false }
  | Key.ArrowDown => { s with downPressed := false }
  | Key.other => s

/-- The restart button handler; `u1` decides the side, `u2` is the draw inside `resetBall`. -/
def restart (F : Field α) (M : JSMath α) (u1 u2 : α) (s : Game α) : Game α :=
  resetBall F M u2 (decide (u1 < 1 / 2))
    { s with
      score := { player := 0, computer := 0 }
      paddle :=
        { player := ⟨(F.H - paddleHeight) / 2⟩
          computer := ⟨(F.H - paddleHeight) / 2⟩ } }

/-- The two paddles. -/
inductive PaddleId where
  | player
  | computer

/-- Scalar speed of a ball, `Math.sqrt(vx * vx + vy * vy)`. -/
def scalarSpeed (M : JSMath α) (b : Ball α) : α := M.sqrt (b.vx * b.vx + b.vy * b.vy)

/-- Top edge `y` of the given paddle. -/
def paddleTop (g : Game α) : PaddleId → α
  | .player => g.paddle.player.y
  | .computer => g.paddle.computer.y

/-- The state of a non-serving tick just before the collision test of the given paddle:
line 143 for the player paddle, line 160 for the computer paddle. -/
def beforeBounce (F : Field α) (M : JSMath α) (s : Game α) : PaddleId → Game α
  | .player => beforePaddles F s
  | .computer => playerBounce M (beforePaddles F s)

/-- The state of a non-serving tick just after the `if` block of the given paddle:
line 157 for the player paddle, line 171 for the computer paddle. -/
def afterBounce (F : Field α) (M : JSMath α) (s : Game α) : PaddleId → Game α
  | .player => playerBounce M (beforePaddles F s)
  | .computer => computerBounce F M (playerBounce M (beforePaddles F s))

/-- Whether the collision test of the given paddle succeeds in a non-serving tick. -/
def hits (F : Field α) (M : JSMath α) (s : Game α) : PaddleId → Bool
  | .player => hitsPlayer (beforePaddles F s)
  | .computer => hitsComputer F (playerBounce M (beforePaddles F s))

/-- The 800 x 500 canvas. -/
def field800 : Field α := ⟨800, 500⟩

/-- A state with the given paddle tops, ball position and velocity and serving flag;
`ball.speed` is 5, the scores are 0, no key is held and no timer is armed. -/
def mkGame (py cy bx bY vx vy : α) (serving : Bool) : Game α :=
  { paddle := { player := ⟨py⟩, computer := ⟨cy⟩ }
    ball := { x := bx, y := bY, speed := 5, vx := vx, vy := vy }
    score := { player := 0, computer := 0 }
    upPressed := false
    downPressed := false
    isServing := serving
    serveTimeout := none
    timers := []
    nextTimer := 0 }

/-- Not serving on the 800 x 500 field; the ball at `(36, 250)` with velocity `(-5, 0)`
meets the player paddle (top 195) at its vertical centre. -/
def centreHit : Game α := mkGame 195 195 36 250 (-5) 0 false

/-- Not serving; the ball at `(23, 219)` with velocity `(-5, 0)` grazes the bottom edge
(`y = 210`) of the player paddle (top 100) from below. -/
def endHit : Game α := mkGame 100 195 23 219 (-5) 0 false

/-- Not serving; the ball at `(35, 215)` with velocity `(-5, 0)` meets the bottom right
corner `(24, 210)` of the player paddle (top 100). -/
def cornerHit : Game α := mkGame 100 195 35 215 (-5) 0 false

/-- Not serving; the ball at `(764, 250)` with velocity `(5, 0)` meets the computer
paddle (top 195) at its vertical centre. -/
def computerHit : Game α := mkGame 195 195 764 250 5 0 false

/-- Spec wording of `setPlayerTargetY(y)`: the vertical centre of the player paddle
becomes `clamp(y, height/2, H - height/2)`. -/
def specTargetCentre (F : Field α) (y : α) : α :=
  clamp y (paddleHeight / 2) (F.H - paddleHeight / 2)

/-- Spec wording of the computer step: with `c` the paddle centre and `b` the ball
centre, move by `+compSpeed` if `c < b - 6`, by `-compSpeed` if `c > b + 6`, else hold;
then clamp into `[0, H - height]`. -/
def specComputerStep (F : Field α) (cy b : α) : α :=
  let c : α := cy + paddleHeight / 2
  let d : α := if c < b - 6 then compSpeed else if c > b + 6 then -compSpeed else 0
  clamp (cy + d) 0 (F.H - paddleHeight)

/-- The closure variables as the script creates them (lines 18-39), before line 217. -/
def initial (F : Field α) : Game α :=
  { paddle := { player := ⟨(F.H - 110) / 2⟩, computer := ⟨(F.H - 110) / 2⟩ }
    ball := { x := F.W / 2, y := F.H / 2, speed := 5, vx := 0, vy := 0 }
    score := { player := 0, computer := 0 }
    upPressed := false
    downPressed := false
    isServing := true
    serveTimeout := none
    timers := []
    nextTimer := 0 }

/-- Line 217, `resetBall(Math.random() < 0.5)`, run on the fresh closure; `u1` is the
draw of line 217 and `u2` the draw inside `resetBall`. -/
def start (F : Field α) (M : JSMath α) (u1 u2 : α) : Game α :=
  resetBall F M u2 (decide (u1 < 1 / 2)) (initial F)

/-- What can happen to the running script: an animation frame (with the draw
`Math.random()` would give), the browser running the serve callback of handle `i`, a
pointer move, a key going down or up, a click on the restart button. -/
inductive Event (α : Type) where
  | tick (u : α)
  | serveTimer (i : Nat)
  | pointer (y : α)
  | keyDown (k : Key)
  | keyUp (k : Key)
  | restartClick (u1 u2 : α)

/-- The handler each event runs. -/
def step (F : Field α) (M : JSMath α) (s : Game α) : Event α → Game α
  | .tick u => update F M u s
  | .serveTimer i => serveEnd i s
  | .pointer y => mousemove F y s
  | .keyDown k => keydown k s
  | .keyUp k => keyup k s
  | .restartClick u1 u2 => restart F M u1 u2 s

/-- The state after a finite sequence of events. -/
def run (F : Field α) (M : JSMath α) (s : Game α) (es : List (Event α)) : Game α :=
  es.foldl (step F M) s

/-- At most one serve callback is armed, and it is the one whose handle the variable
`serveTimeout` holds. -/
def TimersOk (s : Game α) : Prop :=
  s.timers.length ≤ 1 ∧ ∀ i ∈ s.timers, s.serveTimeout = some i

/-- The velocity of the ball has length between 5 and 12 (stated on squares). -/
def SpeedOk (b : Ball α) : Prop :=
  25 ≤ b.vx * b.vx + b.vy * b.vy ∧ b.vx * b.vx + b.vy * b.vy ≤ 144

/-- A 100 x 500 canvas. -/
def field100 : Field α := ⟨100, 500⟩

/-- The script just started on the 100 x 500 canvas with a serve toward the player at
launch angle 0: ball at `(50, 250)`, velocity `(-5, 0)`, serve callback 0 armed. -/
def served100 : Game α :=
  { paddle := { player := ⟨195⟩, computer := ⟨195⟩ }
    ball := { x := 50, y := 250, speed := 5, vx := -5, vy := 0 }
    score := { player := 0, computer := 0 }
    upPressed := false
    downPressed := false
    isServing := true
    serveTimeout := some 0
    timers := [0]
    nextTimer := 1 }

/-- The same game in play after the serve callback ran, with the ball at `(x, 250)`. -/
def flight100 (x : α) : Game α :=
  { paddle := { player := ⟨195⟩, computer := ⟨195⟩ }
    ball := { x := x, y := 250, speed := 5, vx := -5, vy := 0 }
    score := { player := 0, computer := 0 }
    upPressed := false
    downPressed := false
    isServing := false
    serveTimeout := some 0
    timers := []
    nextTimer := 1 }

end Defs

/-- The `Math` object read over the real numbers. -/
noncomputable def realMath : JSMath ℝ := ⟨Real.sqrt, Real.cos, Real.sin, Real.pi⟩

section TimerFrame

variable {α : Type}

theorem clearTimeout_of_ok (s : Game α) (h : TimersOk s) :
    clearTimeout s.serveTimeout s.timers = [] := by
  obtain ⟨hlen, hmem⟩ := h
  cases ht : s.timers with
  | nil => cases s.serveTimeout <;> simp [clearTimeout]
  | cons a l =>
    have hl : l = [] := by
      rw [ht] at hlen
      simp at hlen
      exact hlen
    have ha : s.serveTimeout = some a := hmem a (by rw [ht]; simp)
    rw [ha, hl]
    simp [clearTimeout]

theorem timersOk_congr (s s' : Game α) (h1 : s'.timers = s.timers)
    (h2 : s'.serveTimeout = s.serveTimeout) (h : TimersOk s) : TimersOk s' := by
  unfold TimersOk at *
  rw [h1, h2]
  exact h

theorem serveEnd_timersOk (i : Nat) (s : Game α) (h : TimersOk s) :
    TimersOk (serveEnd i s) := by
  unfold serveEnd
  split_ifs with hi
  · obtain ⟨hlen, hmem⟩ := h
    constructor
    · exact le_trans (List.length_filter_le _ _) hlen
    · intro j hj
      exact hmem j (List.mem_of_mem_filter hj)
  · exact h

theorem serveEnd_of_stale (i : Nat) (s : Game α) (h : TimersOk s)
    (hi : s.serveTimeout ≠ some i) : serveEnd i s = s := by
  unfold serveEnd
  rw [if_neg]
  intro hmem
  exact hi (h.2 i hmem)

end TimerFrame

section Frame

variable {α : Type} [LinearOrderedField α]

theorem clamp_bounds (v a b : α) (h : a ≤ b) : a ≤ clamp v a b ∧ clamp v a b ≤ b := by
  unfold clamp
  exact ⟨le_max_left _ _, max_le h (min_le_left _ _)⟩

theorem resetBall_paddle (F : Field α) (M : JSMath α) (u : α) (t : Bool) (s : Game α) :
    (resetBall F M u t s).paddle = s.paddle := rfl

theorem resetBall_score (F : Field α) (M : JSMath α) (u : α) (t : Bool) (s : Game α) :
    (resetBall F M u t s).score = s.score := rfl

theorem scoring_paddle (F : Field α) (M : JSMath α) (u : α) (s : Game α) :
    (scoring F M u s).paddle = s.paddle := by
  unfold scoring
  split_ifs <;> rfl

theorem playerBounce_paddle (M : JSMath α) (s : Game α) :
    (playerBounce M s).paddle = s.paddle := by
  unfold playerBounce
  split_ifs <;> rfl

theorem computerBounce_paddle (F : Field α) (M : JSMath α) (s : Game α) :
    (computerBounce F M s).paddle = s.paddle := by
  unfold computerBounce
  split_ifs <;> rfl

theorem wallBounce_paddle (F : Field α) (s : Game α) : (wallBounce F s).paddle = s.paddle := by
  unfold wallBounce
  split_ifs <;> rfl

theorem playerBounce_score (M : JSMath α) (s : Game α) :
    (playerBounce M s).score = s.score := by
  unfold playerBounce
  split_ifs <;> rfl

theorem computerBounce_score (F : Field α) (M : JSMath α) (s : Game α) :
    (computerBounce F M s).score = s.score := by
  unfold computerBounce
  split_ifs <;> rfl

theorem wallBounce_score (F : Field α) (s : Game α) : (wallBounce F s).score = s.score := by
  unfold wallBounce
  split_ifs <;> rfl

theorem beforeScoring_paddle (F : Field α) (M : JSMath α) (s : Game α) :
    (beforeScoring F M s).paddle = (moveComputer F (movePlayer F s)).paddle := by
  unfold beforeScoring beforePaddles
  rw [computerBounce_paddle, playerBounce_paddle, wallBounce_paddle]
  rfl

theorem beforeScoring_score (F : Field α) (M : JSMath α) (s : Game α) :
    (beforeScoring F M s).score = s.score := by
  unfold beforeScoring beforePaddles
  rw [computerBounce_score, playerBounce_score, wallBounce_score]
  rfl

theorem update_paddle (F : Field α) (M : JSMath α) (u : α) (s : Game α) :
    (update F M u s).paddle = (moveComputer F (movePlayer F s)).paddle := by
  unfold update
  simp only []
  split_ifs
  · rfl
  · rw [scoring_paddle, beforeScoring_paddle]

theorem update_serving (F : Field α) (M : JSMath α) (u : α) (s : Game α)
    (h : s.isServing = true) :
    update F M u s = servePin F (moveComputer F (movePlayer F s)) := by
  have h1 : (moveComputer F (movePlayer F s)).isServing = true := h
  unfold update
  simp only [h1, if_true]

theorem update_playing (F : Field α) (M : JSMath α) (u : α) (s : Game α)
    (h : s.isServing = false) :
    update F M u s = scoring F M u (beforeScoring F M s) := by
  have h1 : (moveComputer F (movePlayer F s)).isServing = false := h
  unfold update
  simp [h1]

theorem beforePaddles_ball_x (F : Field α) (s : Game α) :
    (beforePaddles F s).ball.x = s.ball.x + s.ball.vx := by
  unfold beforePaddles wallBounce
  split_ifs <;> rfl

theorem beforePaddles_score (F : Field α) (s : Game α) :
    (beforePaddles F s).score = s.score := by
  unfold beforePaddles
  rw [wallBounce_score]
  rfl

theorem playerBounce_of_miss (M : JSMath α) (s : Game α) (h : hitsPlayer s = false) :
    playerBounce M s = s := by
  simp [playerBounce, h]

theorem computerBounce_of_miss (F : Field α) (M : JSMath α) (s : Game α)
    (h : hitsComputer F s = false) : computerBounce F M s = s := by
  simp [computerBounce, h]

/-- A ball whose right edge is left of the computer paddle does not touch it. -/
theorem hitsComputer_of_left (F : Field α) (s : Game α)
    (h : s.ball.x + ballR < computerX F) : hitsComputer F s = false := by
  unfold hitsComputer circleRectCollision
  simp only [decide_eq_false_iff_not, not_le]
  have h1 : computerX F ≤ clamp s.ball.x (computerX F) (computerX F + paddleWidth) :=
    (clamp_bounds _ _ _ (by unfold paddleWidth; linarith)).1
  unfold ballR at h ⊢
  nlinarith [mul_self_nonneg
    (s.ball.y - clamp s.ball.y s.paddle.computer.y (s.paddle.computer.y + paddleHeight))]

theorem update_vx_of_computerScores (F : Field α) (M : JSMath α) (u : α) (s : Game α)
    (hs : s.isServing = false) (h : computerScores (beforeScoring F M s) = true) :
    (update F M u s).ball.vx = 1 * 5 * M.cos (u * M.PI / 4 - M.PI / 8) := by
  rw [update_playing _ _ _ _ hs]
  unfold scoring
  rw [if_pos h]
  simp [resetBall]

theorem update_vx_of_playerScores (F : Field α) (M : JSMath α) (u : α) (s : Game α)
    (hs : s.isServing = false) (h : computerScores (beforeScoring F M s) = false)
    (h2 : playerScores F (beforeScoring F M s) = true) :
    (update F M u s).ball.vx = -1 * 5 * M.cos (u * M.PI / 4 - M.PI / 8) := by
  rw [update_playing _ _ _ _ hs]
  unfold scoring
  rw [if_neg (by simp [h]), if_pos h2]
  simp [resetBall]

/-- The launch angle of `resetBall` lies strictly inside `(-π/2, π/2)`, so its cosine is
positive. -/
theorem serve_angle_cos_pos (u : ℝ) (h0 : 0 ≤ u) (h1 : u < 1) :
    0 < Real.cos (u * Real.pi / 4 - Real.pi / 8) := by
  have hpi := Real.pi_pos
  have ha : 0 ≤ u * Real.pi := mul_nonneg h0 hpi.le
  have hb : u * Real.pi < Real.pi := by nlinarith
  apply Real.cos_pos_of_mem_Ioo
  constructor <;> linarith

theorem playerBounce_vx_ge (M : JSMath α) (s : Game α) (h : hitsPlayer s = true) :
    2 ≤ (playerBounce M s).ball.vx := by
  unfold playerBounce
  simp only [h, if_true]
  split_ifs with h1 h2 h3
  · exact le_refl _
  · have h4 : 0 ≤ -(M.cos (bounceAngle M s.ball.y s.paddle.player.y) * bounceSpeed M s.ball) :=
      by linarith
    rw [abs_of_nonneg h4] at h2
    exact not_lt.mp h2
  · exact le_refl _
  · have h4 := not_lt.mp h1
    rw [abs_of_nonneg h4] at h3
    exact not_lt.mp h3

theorem computerBounce_vx_le (F : Field α) (M : JSMath α) (s : Game α)
    (h : hitsComputer F s = true) : (computerBounce F M s).ball.vx ≤ -2 := by
  unfold computerBounce
  simp only [h, if_true]
  split_ifs with h1 h2 h3
  · exact le_refl _
  · have h4 : -(-M.cos (bounceAngle M s.ball.y s.paddle.computer.y) * bounceSpeed M s.ball) ≤ 0 :=
      by linarith
    rw [abs_of_nonpos h4] at h2
    have h5 := not_lt.mp h2
    linarith
  · exact le_refl _
  · have h4 := not_lt.mp h1
    rw [abs_of_nonpos h4] at h3
    have h5 := not_lt.mp h3
    linarith

theorem playerBounce_ball_x (M : JSMath α) (s : Game α) (h : hitsPlayer s = true) :
    (playerBounce M s).ball.x = 67 / 2 := by
  unfold playerBounce
  simp only [h, if_true]
  unfold playerX paddleWidth ballR
  norm_num

theorem computerBounce_ball_x (F : Field α) (M : JSMath α) (s : Game α)
    (h : hitsComputer F s = true) : (computerBounce F M s).ball.x = F.W - 67 / 2 := by
  unfold computerBounce
  simp only [h, if_true]
  unfold computerX ballR
  ring

/-- On a field wider than 66.5 a tick that bounces off the player paddle ends right
there: the computer paddle is out of reach and nobody scores. -/
theorem update_of_player_hit (F : Field α) (hW : 133 / 2 < F.W) (M : JSMath α) (u : α)
    (s : Game α) (hs : s.isServing = false) (h : hitsPlayer (beforePaddles F s) = true) :
    update F M u s = playerBounce M (beforePaddles F s) := by
  have hx := playerBounce_ball_x M _ h
  have hc : hitsComputer F (playerBounce M (beforePaddles F s)) = false := by
    apply hitsComputer_of_left
    rw [hx]
    unfold ballR computerX
    linarith
  rw [update_playing _ _ _ _ hs]
  unfold beforeScoring
  rw [computerBounce_of_miss _ _ _ hc]
  have h1 : computerScores (playerBounce M (beforePaddles F s)) = false := by
    unfold computerScores ballR
    rw [hx]
    norm_num
  have h2 : playerScores F (playerBounce M (beforePaddles F s)) = false := by
    unfold playerScores ballR
    rw [hx]
    simp only [decide_eq_false_iff_not, not_le, ge_iff_le]
    linarith
  unfold scoring
  simp [h1, h2]

/-- On a field wider than 42.5 a tick that bounces off the computer paddle ends right
there: nobody scores. -/
theorem update_of_computer_hit (F : Field α) (hW : 85 / 2 < F.W) (M : JSMath α) (u : α)
    (s : Game α) (hs : s.isServing = false)
    (h : hitsComputer F (playerBounce M (beforePaddles F s)) = true) :
    update F M u s = beforeScoring F M s := by
  have hx : (beforeScoring F M s).ball.x = F.W - 67 / 2 := computerBounce_ball_x F M _ h
  rw [update_playing _ _ _ _ hs]
  have h1 : computerScores (beforeScoring F M s) = false := by
    unfold computerScores ballR
    rw [hx]
    simp only [decide_eq_false_iff_not, not_le]
    linarith
  have h2 : playerScores F (beforeScoring F M s) = false := by
    unfold playerScores ballR
    rw [hx]
    simp only [decide_eq_false_iff_not, not_le, ge_iff_le]
    linarith
  unfold scoring
  simp [h1, h2]

theorem ite_neg_eq_abs (x : α) : (if x < 0 then -x else x) = |x| := by
  split_ifs with h
  · exact (abs_of_neg h).symm
  · exact (abs_of_nonneg (not_lt.mp h)).symm

theorem ite_pos_eq_neg_abs (x : α) : (if x > 0 then -x else x) = -|x| := by
  split_ifs with h
  · rw [abs_of_pos h]
  · rw [abs_of_nonpos (not_lt.mp h), neg_neg]

/-- Lines 152-153 and 156 in closed form. -/
theorem playerBounce_ball_vx (M : JSMath α) (s : Game α) (h : hitsPlayer s = true) :
    (playerBounce M s).ball.vx =
      if |M.cos (bounceAngle M s.ball.y s.paddle.player.y) * bounceSpeed M s.ball| < 2 then 2
      else |M.cos (bounceAngle M s.ball.y s.paddle.player.y) * bounceSpeed M s.ball| := by
  unfold playerBounce
  simp only [h, if_true]
  rw [ite_neg_eq_abs, abs_abs]

theorem playerBounce_ball_vy (M : JSMath α) (s : Game α) (h : hitsPlayer s = true) :
    (playerBounce M s).ball.vy =
      M.sin (bounceAngle M s.ball.y s.paddle.player.y) * bounceSpeed M s.ball := by
  unfold playerBounce
  simp only [h, if_true]

theorem playerBounce_ball_speed (M : JSMath α) (s : Game α) :
    (playerBounce M s).ball.speed = s.ball.speed := by
  unfold playerBounce
  split_ifs <;> rfl

/-- Lines 167-168 and 170 in closed form. -/
theorem computerBounce_ball_vx (F : Field α) (M : JSMath α) (s : Game α)
    (h : hitsComputer F s = true) :
    (computerBounce F M s).ball.vx =
      if |M.cos (bounceAngle M s.ball.y s.paddle.computer.y) * bounceSpeed M s.ball| < 2
      then -2
      else -|M.cos (bounceAngle M s.ball.y s.paddle.computer.y) * bounceSpeed M s.ball| := by
  unfold computerBounce
  simp only [h, if_true]
  rw [ite_pos_eq_neg_abs, abs_neg, abs_abs, neg_mul, abs_neg]

theorem computerBounce_ball_vy (F : Field α) (M : JSMath α) (s : Game α)
    (h : hitsComputer F s = true) :
    (computerBounce F M s).ball.vy =
      M.sin (bounceAngle M s.ball.y s.paddle.computer.y) * bounceSpeed M s.ball := by
  unfold computerBounce
  simp only [h, if_true]

theorem computerBounce_ball_speed (F : Field α) (M : JSMath α) (s : Game α) :
    (computerBounce F M s).ball.speed = s.ball.speed := by
  unfold computerBounce
  split_ifs <;> rfl

theorem bounceSpeed_le (M : JSMath α) (b : Ball α) : bounceSpeed M b ≤ 12 :=
  min_le_right _ _

theorem bounceSpeed_nonneg (b : Ball ℝ) : 0 ≤ bounceSpeed realMath b := by
  unfold bounceSpeed realMath
  exact le_min (mul_nonneg (Real.sqrt_nonneg _) (by norm_num)) (by norm_num)

theorem bounceSpeed_eq (M : JSMath α) (b : Ball α) :
    bounceSpeed M b = min (21 / 20 * scalarSpeed M b) 12 := by
  unfold bounceSpeed scalarSpeed
  rw [mul_comm]

/-- Velocity after a bounce whose horizontal part needs no forcing: its square length is
the square of the local `speed`. -/
theorem sq_of_flat (c sn v : ℝ) (hcs : c * c + sn * sn = 1) :
    |c * v| * |c * v| + sn * v * (sn * v) = v * v := by
  rw [abs_mul_abs_self]
  have : c * v * (c * v) + sn * v * (sn * v) = (c * c + sn * sn) * (v * v) := by ring
  rw [this, hcs, one_mul]

/-- Velocity after a bounce whose horizontal part is forced to magnitude 2: its square
length exceeds the square of the local `speed`. -/
theorem sq_of_steep (c sn v : ℝ) (hcs : c * c + sn * sn = 1) (h : |c * v| < 2) :
    v * v < 2 * 2 + sn * v * (sn * v) := by
  have h1 : |c * v| * |c * v| < 2 * 2 :=
    mul_self_lt_mul_self (abs_nonneg _) h
  have h2 := sq_of_flat c sn v hcs
  linarith

theorem cos_sin_self (x : ℝ) : Real.cos x * Real.cos x + Real.sin x * Real.sin x = 1 := by
  have := Real.cos_sq_add_sin_sq x
  nlinarith

theorem afterBounce_flat (F : Field ℝ) (s : Game ℝ) (w : PaddleId)
    (hhit : hits F realMath s w = true)
    (hflat : 2 ≤ |Real.cos (bounceAngle realMath (beforeBounce F realMath s w).ball.y
      (paddleTop (beforeBounce F realMath s w) w))
        * bounceSpeed realMath (beforeBounce F realMath s w).ball|) :
    (afterBounce F realMath s w).ball.vx * (afterBounce F realMath s w).ball.vx
      + (afterBounce F realMath s w).ball.vy * (afterBounce F realMath s w).ball.vy
      = bounceSpeed realMath (beforeBounce F realMath s w).ball
        * bounceSpeed realMath (beforeBounce F realMath s w).ball := by
  cases w
  · simp only [afterBounce, beforeBounce, hits, paddleTop] at *
    rw [playerBounce_ball_vx _ _ hhit, playerBounce_ball_vy _ _ hhit]
    have hf : ¬ |realMath.cos (bounceAngle realMath (beforePaddles F s).ball.y
        (beforePaddles F s).paddle.player.y) * bounceSpeed realMath (beforePaddles F s).ball|
        < 2 := not_lt.mpr hflat
    rw [if_neg hf]
    exact sq_of_flat _ _ _ (cos_sin_self _)
  · simp only [afterBounce, beforeBounce, hits, paddleTop] at *
    rw [computerBounce_ball_vx _ _ _ hhit, computerBounce_ball_vy _ _ _ hhit]
    have hf : ¬ |realMath.cos (bounceAngle realMath (playerBounce realMath
        (beforePaddles F s)).ball.y (playerBounce realMath (beforePaddles F s)).paddle.computer.y)
        * bounceSpeed realMath (playerBounce realMath (beforePaddles F s)).ball|
        < 2 := not_lt.mpr hflat
    rw [if_neg hf, neg_mul_neg]
    exact sq_of_flat _ _ _ (cos_sin_self _)

theorem afterBounce_steep (F : Field ℝ) (s : Game ℝ) (w : PaddleId)
    (hhit : hits F realMath s w = true)
    (hsteep : |Real.cos (bounceAngle realMath (beforeBounce F realMath s w).ball.y
      (paddleTop (beforeBounce F realMath s w) w))
        * bounceSpeed realMath (beforeBounce F realMath s w).ball| < 2) :
    bounceSpeed realMath (beforeBounce F realMath s w).ball
        * bounceSpeed realMath (beforeBounce F realMath s w).ball
      < (afterBounce F realMath s w).ball.vx * (afterBounce F realMath s w).ball.vx
      + (afterBounce F realMath s w).ball.vy * (afterBounce F realMath s w).ball.vy := by
  cases w
  · simp only [afterBounce, beforeBounce, hits, paddleTop] at *
    rw [playerBounce_ball_vx _ _ hhit, playerBounce_ball_vy _ _ hhit]
    have hf : |realMath.cos (bounceAngle realMath (beforePaddles F s).ball.y
        (beforePaddles F s).paddle.player.y) * bounceSpeed realMath (beforePaddles F s).ball|
        < 2 := hsteep
    rw [if_pos hf]
    exact sq_of_steep _ _ _ (cos_sin_self _) hf
  · simp only [afterBounce, beforeBounce, hits, paddleTop] at *
    rw [computerBounce_ball_vx _ _ _ hhit, computerBounce_ball_vy _ _ _ hhit]
    have hf : |realMath.cos (bounceAngle realMath (playerBounce realMath
        (beforePaddles F s)).ball.y (playerBounce realMath (beforePaddles F s)).paddle.computer.y)
        * bounceSpeed realMath (playerBounce realMath (beforePaddles F s)).ball|
        < 2 := hsteep
    rw [if_pos hf, neg_mul_neg]
    exact sq_of_steep _ _ _ (cos_sin_self _) hf

theorem sqrt_twenty_five : Real.sqrt 25 = 5 := by
  have h : (25 : ℝ) = 5 * 5 := by norm_num
  rw [h, Real.sqrt_mul_self (by norm_num)]

theorem scalarSpeed_of_five (b : Ball ℝ) (h : b.vx * b.vx + b.vy * b.vy = 25) :
    scalarSpeed realMath b = 5 := by
  unfold scalarSpeed realMath
  simp only [h]
  exact sqrt_twenty_five

theorem bounceSpeed_of_five (b : Ball ℝ) (h : b.vx * b.vx + b.vy * b.vy = 25) :
    bounceSpeed realMath b = 21 / 4 := by
  rw [bounceSpeed_eq, scalarSpeed_of_five b h]
  norm_num

theorem afterBounce_speed_flat (F : Field ℝ) (s : Game ℝ) (w : PaddleId)
    (hhit : hits F realMath s w = true)
    (hflat : 2 ≤ |Real.cos (bounceAngle realMath (beforeBounce F realMath s w).ball.y
      (paddleTop (beforeBounce F realMath s w) w))
        * bounceSpeed realMath (beforeBounce F realMath s w).ball|) :
    scalarSpeed realMath (afterBounce F realMath s w).ball
      = bounceSpeed realMath (beforeBounce F realMath s w).ball := by
  unfold scalarSpeed
  rw [afterBounce_flat F s w hhit hflat]
  exact Real.sqrt_mul_self (bounceSpeed_nonneg _)

theorem afterBounce_speed_steep (F : Field ℝ) (s : Game ℝ) (w : PaddleId)
    (hhit : hits F realMath s w = true)
    (hsteep : |Real.cos (bounceAngle realMath (beforeBounce F realMath s w).ball.y
      (paddleTop (beforeBounce F realMath s w) w))
        * bounceSpeed realMath (beforeBounce F realMath s w).ball| < 2) :
    bounceSpeed realMath (beforeBounce F realMath s w).ball
      < scalarSpeed realMath (afterBounce F realMath s w).ball := by
  have h := afterBounce_steep F s w hhit hsteep
  have h0 := bounceSpeed_nonneg (beforeBounce F realMath s w).ball
  have h1 := Real.sqrt_lt_sqrt (mul_self_nonneg _) h
  rw [Real.sqrt_mul_self h0] at h1
  exact h1

theorem afterBounce_ball_speed (F : Field α) (M : JSMath α) (s : Game α) (w : PaddleId) :
    (afterBounce F M s w).ball.speed = (beforeBounce F M s w).ball.speed := by
  cases w
  · exact playerBounce_ball_speed M _
  · exact computerBounce_ball_speed F M _

/-- The cosine of the bounce angle for `normalized = 64/55`, times 5.25, is below 2. -/
theorem cos_end_hit : |Real.cos (64 / 55 * (Real.pi / 3)) * (21 / 4)| < 2 := by
  have hpi := Real.pi_pos
  have hpi2 := Real.pi_lt_d2
  have h0 : 0 ≤ Real.cos (64 / 55 * (Real.pi / 3)) := by
    apply Real.cos_nonneg_of_mem_Icc
    constructor <;> linarith
  have h1 : Real.cos (64 / 55 * (Real.pi / 3))
      = Real.sin (Real.pi / 2 - 64 / 55 * (Real.pi / 3)) := (Real.sin_pi_div_two_sub _).symm
  have h2 : Real.sin (Real.pi / 2 - 64 / 55 * (Real.pi / 3))
      < Real.pi / 2 - 64 / 55 * (Real.pi / 3) := Real.sin_lt (by linarith)
  rw [abs_lt]
  constructor <;> nlinarith

/-- Trace of `centreHit` up to line 141. -/
theorem centreHit_trace :
    (beforePaddles field800 (centreHit : Game ℝ)).ball.x = 31 ∧
    (beforePaddles field800 (centreHit : Game ℝ)).ball.y = 250 ∧
    (beforePaddles field800 (centreHit : Game ℝ)).ball.vx = -5 ∧
    (beforePaddles field800 (centreHit : Game ℝ)).ball.vy = 0 ∧
    (beforePaddles field800 (centreHit : Game ℝ)).ball.speed = 5 ∧
    (beforePaddles field800 (centreHit : Game ℝ)).paddle.player.y = 195 ∧
    hitsPlayer (beforePaddles field800 (centreHit : Game ℝ)) = true := by
  norm_num [centreHit, beforePaddles, wallBounce, moveBall, moveComputer, movePlayer,
    hitsPlayer, circleRectCollision, mkGame, field800, clamp, ballR, paddleHeight,
    paddleWidth, playerX, compSpeed, paddleSpeed]

/-- Trace of `endHit` up to line 141. -/
theorem endHit_trace :
    (beforePaddles field800 (endHit : Game ℝ)).ball.x = 18 ∧
    (beforePaddles field800 (endHit : Game ℝ)).ball.y = 219 ∧
    (beforePaddles field800 (endHit : Game ℝ)).ball.vx = -5 ∧
    (beforePaddles field800 (endHit : Game ℝ)).ball.vy = 0 ∧
    (beforePaddles field800 (endHit : Game ℝ)).ball.speed = 5 ∧
    (beforePaddles field800 (endHit : Game ℝ)).paddle.player.y = 100 ∧
    hitsPlayer (beforePaddles field800 (endHit : Game ℝ)) = true := by
  norm_num [endHit, beforePaddles, wallBounce, moveBall, moveComputer, movePlayer,
    hitsPlayer, circleRectCollision, mkGame, field800, clamp, ballR, paddleHeight,
    paddleWidth, playerX, compSpeed, paddleSpeed]

/-- Trace of `cornerHit` up to line 141. -/
theorem cornerHit_trace :
    (beforePaddles field800 (cornerHit : Game ℝ)).ball.x = 30 ∧
    (beforePaddles field800 (cornerHit : Game ℝ)).ball.y = 215 ∧
    (beforePaddles field800 (cornerHit : Game ℝ)).paddle.player.y = 100 ∧
    hitsPlayer (beforePaddles field800 (cornerHit : Game ℝ)) = true := by
  norm_num [cornerHit, beforePaddles, wallBounce, moveBall, moveComputer, movePlayer,
    hitsPlayer, circleRectCollision, mkGame, field800, clamp, ballR, paddleHeight,
    paddleWidth, playerX, compSpeed, paddleSpeed]

/-- Trace of `computerHit` up to line 160. -/
theorem computerHit_trace :
    hitsPlayer (beforePaddles field800 (computerHit : Game ℝ)) = false ∧
    hitsComputer field800 (beforePaddles field800 (computerHit : Game ℝ)) = true := by
  norm_num [computerHit, beforePaddles, wallBounce, moveBall, moveComputer, movePlayer,
    hitsPlayer, hitsComputer, circleRectCollision, mkGame, field800, clamp, ballR,
    paddleHeight, paddleWidth, playerX, computerX, compSpeed, paddleSpeed]

/-- The point `clamp v a b` of `[a, b]` is at least as close to `v` as any other point
of the interval. -/
theorem clamp_nearest (v a b p : α) (ha : a ≤ p) (hb : p ≤ b) :
    (v - clamp v a b) * (v - clamp v a b) ≤ (v - p) * (v - p) := by
  unfold clamp
  rcases le_total v a with h1 | h1
  · have h2 : min b v = v := min_eq_right (by linarith)
    rw [h2, max_eq_left h1]
    nlinarith
  · rcases le_total v b with h3 | h3
    · rw [min_eq_right h3, max_eq_right h1]
      nlinarith [mul_self_nonneg (v - p)]
    · rw [min_eq_left h3, max_eq_right (by linarith)]
      nlinarith

theorem clamp_of_mem (v a b : α) (ha : a ≤ v) (hb : v ≤ b) : clamp v a b = v := by
  unfold clamp
  rw [min_eq_right hb, max_eq_right ha]

theorem wallBounce_ball_y_bounds (F : Field α) (hH : 18 ≤ F.H) (s : Game α) :
    9 ≤ (wallBounce F s).ball.y ∧ (wallBounce F s).ball.y ≤ F.H - 9 := by
  unfold wallBounce ballR
  split_ifs with h1 h2
  · exact ⟨le_refl _, by simp only; linarith⟩
  · exact ⟨by simp only; linarith, le_refl _⟩
  · have h3 := not_le.mp h1
    have h4 := not_le.mp h2
    constructor <;> linarith

theorem playerBounce_ball_y (M : JSMath α) (s : Game α) :
    (playerBounce M s).ball.y = s.ball.y := by
  unfold playerBounce
  split_ifs <;> rfl

theorem computerBounce_ball_y (F : Field α) (M : JSMath α) (s : Game α) :
    (computerBounce F M s).ball.y = s.ball.y := by
  unfold computerBounce
  split_ifs <;> rfl

theorem beforeScoring_ball_y (F : Field α) (M : JSMath α) (s : Game α) :
    (beforeScoring F M s).ball.y = (beforePaddles F s).ball.y := by
  unfold beforeScoring
  rw [computerBounce_ball_y, playerBounce_ball_y]

theorem scoring_ball_y (F : Field α) (M : JSMath α) (u : α) (s : Game α) :
    (scoring F M u s).ball.y = s.ball.y ∨ (scoring F M u s).ball.y = F.H / 2 := by
  unfold scoring
  split_ifs
  · right; rfl
  · right; rfl
  · left; rfl

theorem run_nil (F : Field α) (M : JSMath α) (s : Game α) : run F M s [] = s := rfl

theorem run_cons (F : Field α) (M : JSMath α) (s : Game α) (e : Event α)
    (es : List (Event α)) : run F M s (e :: es) = run F M (step F M s e) es := rfl

/-- A property kept by every handler holds after every run. -/
theorem run_invariant (F : Field α) (M : JSMath α) (P : Game α → Prop)
    (hstep : ∀ s e, P s → P (step F M s e)) (es : List (Event α)) :
    ∀ s, P s → P (run F M s es) := by
  induction es with
  | nil => intro s hs; exact hs
  | cons e es ih => intro s hs; exact ih _ (hstep s e hs)

theorem resetBall_timers (F : Field α) (M : JSMath α) (u : α) (t : Bool) (s : Game α)
    (h : TimersOk s) :
    (resetBall F M u t s).timers = [s.nextTimer] ∧
    (resetBall F M u t s).serveTimeout = some s.nextTimer := by
  have hc := clearTimeout_of_ok s h
  constructor
  · show clearTimeout s.serveTimeout s.timers ++ [s.nextTimer] = [s.nextTimer]
    rw [hc]
    rfl
  · rfl

theorem resetBall_timersOk (F : Field α) (M : JSMath α) (u : α) (t : Bool) (s : Game α)
    (h : TimersOk s) : TimersOk (resetBall F M u t s) := by
  obtain ⟨h1, h2⟩ := resetBall_timers F M u t s h
  unfold TimersOk
  rw [h1, h2]
  simp

theorem wallBounce_timers (F : Field α) (s : Game α) :
    (wallBounce F s).timers = s.timers ∧ (wallBounce F s).serveTimeout = s.serveTimeout := by
  unfold wallBounce
  split_ifs <;> exact ⟨rfl, rfl⟩

theorem playerBounce_timers (M : JSMath α) (s : Game α) :
    (playerBounce M s).timers = s.timers ∧
    (playerBounce M s).serveTimeout = s.serveTimeout := by
  unfold playerBounce
  split_ifs <;> exact ⟨rfl, rfl⟩

theorem computerBounce_timers (F : Field α) (M : JSMath α) (s : Game α) :
    (computerBounce F M s).timers = s.timers ∧
    (computerBounce F M s).serveTimeout = s.serveTimeout := by
  unfold computerBounce
  split_ifs <;> exact ⟨rfl, rfl⟩

theorem beforeScoring_timers (F : Field α) (M : JSMath α) (s : Game α) :
    (beforeScoring F M s).timers = s.timers ∧
    (beforeScoring F M s).serveTimeout = s.serveTimeout := by
  unfold beforeScoring beforePaddles
  rw [(computerBounce_timers F M _).1, (computerBounce_timers F M _).2,
    (playerBounce_timers M _).1, (playerBounce_timers M _).2,
    (wallBounce_timers F _).1, (wallBounce_timers F _).2]
  exact ⟨rfl, rfl⟩

theorem scoring_timersOk (F : Field α) (M : JSMath α) (u : α) (s : Game α)
    (h : TimersOk s) : TimersOk (scoring F M u s) := by
  unfold scoring
  split_ifs
  · exact resetBall_timersOk F M u false _ (timersOk_congr s _ rfl rfl h)
  · exact resetBall_timersOk F M u true _ (timersOk_congr s _ rfl rfl h)
  · exact h

theorem update_timersOk (F : Field α) (M : JSMath α) (u : α) (s : Game α)
    (h : TimersOk s) : TimersOk (update F M u s) := by
  cases hs : s.isServing
  · rw [update_playing F M u s hs]
    apply scoring_timersOk
    exact timersOk_congr s _ (beforeScoring_timers F M s).1 (beforeScoring_timers F M s).2 h
  · rw [update_serving F M u s hs]
    exact timersOk_congr s _ rfl rfl h

theorem step_timersOk (F : Field α) (M : JSMath α) (s : Game α) (e : Event α)
    (h : TimersOk s) : TimersOk (step F M s e) := by
  cases e with
  | tick u => exact update_timersOk F M u s h
  | serveTimer i => exact serveEnd_timersOk i s h
  | pointer y => exact timersOk_congr s _ rfl rfl h
  | keyDown k => cases k <;> exact timersOk_congr s _ rfl rfl h
  | keyUp k => cases k <;> exact timersOk_congr s _ rfl rfl h
  | restartClick u1 u2 =>
    exact resetBall_timersOk F M u2 _ _ (timersOk_congr s _ rfl rfl h)

theorem initial_timersOk (F : Field α) : TimersOk (initial F) := by
  unfold TimersOk initial
  simp

theorem run_start_timersOk (F : Field α) (M : JSMath α) (u1 u2 : α)
    (es : List (Event α)) : TimersOk (run F M (start F M u1 u2) es) :=
  run_invariant F M TimersOk (fun s e hs => step_timersOk F M s e hs) es _
    (resetBall_timersOk F M u2 _ _ (initial_timersOk F))

/-- A ball that touches a rectangle has its centre at most `rh/2 + r` from the
horizontal mid-line of the rectangle. -/
theorem hit_offset_bound (cx cy r rx ry rw rh : α) (hr : 0 ≤ r) (hh : 0 ≤ rh)
    (h : circleRectCollision cx cy r rx ry rw rh = true) :
    |cy - (ry + rh / 2)| ≤ rh / 2 + r := by
  unfold circleRectCollision at h
  simp only [decide_eq_true_eq] at h
  have hb := clamp_bounds cy ry (ry + rh) (by linarith)
  have hx := mul_self_nonneg (cx - clamp cx rx (rx + rw))
  have h1 : cy - clamp cy ry (ry + rh) ≤ r := by
    by_contra hc
    have hc2 := not_le.mp hc
    nlinarith
  have h2 : -r ≤ cy - clamp cy ry (ry + rh) := by
    by_contra hc
    have hc2 := not_le.mp hc
    nlinarith
  rw [abs_le]
  constructor <;> linarith [hb.1, hb.2]

theorem hit_normalized_bound (cx cy rx py : α)
    (h : circleRectCollision cx cy ballR rx py paddleWidth paddleHeight = true) :
    |normalized cy py| ≤ 64 / 55 := by
  have hb := hit_offset_bound cx cy ballR rx py paddleWidth paddleHeight
    (by unfold ballR; norm_num) (by unfold paddleHeight; norm_num) h
  unfold normalized
  unfold paddleHeight at hb ⊢
  unfold ballR at hb
  rw [abs_div, abs_of_pos (by norm_num : (0 : α) < 110 / 2), div_le_iff₀ (by norm_num)]
  have e : (64 : α) / 55 * (110 / 2) = 110 / 2 + 9 := by norm_num
  rw [e]
  exact hb

/-- For `|normalized| ≤ 64/55` the cosine of the bounce angle exceeds `1/5`. -/
theorem cos_bounce_gt (x : ℝ) (hx : |x| ≤ 64 / 55) : 1 / 5 < Real.cos (x * (Real.pi / 3)) := by
  have hpi := Real.pi_pos
  have hlo := Real.pi_gt_d2
  have hhi := Real.pi_lt_d2
  have h0 : 0 ≤ |x| * (Real.pi / 3) := mul_nonneg (abs_nonneg _) (by linarith)
  have h1 : |x| * (Real.pi / 3) ≤ 64 / 55 * (Real.pi / 3) :=
    mul_le_mul_of_nonneg_right hx (by linarith)
  have habs : |x * (Real.pi / 3)| = |x| * (Real.pi / 3) := by
    rw [abs_mul, abs_of_pos (by linarith : 0 < Real.pi / 3)]
  have hmono : Real.cos (64 / 55 * (Real.pi / 3)) ≤ Real.cos (|x| * (Real.pi / 3)) :=
    Real.cos_le_cos_of_nonneg_of_le_pi h0 (by linarith) h1
  have hsin : Real.cos (64 / 55 * (Real.pi / 3))
      = Real.sin (Real.pi / 2 - 64 / 55 * (Real.pi / 3)) := (Real.sin_pi_div_two_sub _).symm
  have hy0 : 0 < Real.pi / 2 - 64 / 55 * (Real.pi / 3) := by linarith
  have hy1 : Real.pi / 2 - 64 / 55 * (Real.pi / 3) ≤ 1 := by linarith
  have hcube := Real.sin_gt_sub_cube hy0 hy1
  have hyl : (35 : ℝ) / 100 ≤ Real.pi / 2 - 64 / 55 * (Real.pi / 3) := by linarith
  have hyu : Real.pi / 2 - 64 / 55 * (Real.pi / 3) ≤ 36 / 100 := by linarith
  have hyy : (Real.pi / 2 - 64 / 55 * (Real.pi / 3)) * (Real.pi / 2 - 64 / 55 * (Real.pi / 3))
      ≤ 36 / 100 * (36 / 100) := mul_le_mul hyu hyu hy0.le (by norm_num)
  have hsq : (Real.pi / 2 - 64 / 55 * (Real.pi / 3)) ^ 3 ≤ 36 / 100 * (36 / 100) * (36 / 100) := by
    have h3 := mul_le_mul hyy hyu hy0.le (by norm_num)
    calc (Real.pi / 2 - 64 / 55 * (Real.pi / 3)) ^ 3
        = (Real.pi / 2 - 64 / 55 * (Real.pi / 3)) * (Real.pi / 2 - 64 / 55 * (Real.pi / 3))
          * (Real.pi / 2 - 64 / 55 * (Real.pi / 3)) := by ring
      _ ≤ 36 / 100 * (36 / 100) * (36 / 100) := h3
  rw [← Real.cos_abs, habs]
  have : (1 : ℝ) / 5 < Real.sin (Real.pi / 2 - 64 / 55 * (Real.pi / 3)) := by
    have e : (36 : ℝ) / 100 * (36 / 100) * (36 / 100) = 46656 / 1000000 := by norm_num
    rw [e] at hsq
    linarith
  linarith

/-- Square length of the velocity a bounce produces, when the incoming local `speed`
lies in `[5, 12]` and the cosine of the bounce angle exceeds `1/5`: `vxx` is the square
of the new `vx`, either `4` (forced) or `(c * v)^2`. -/
theorem bounce_sq_bounds (c sn v vxx : ℝ) (hcs : c * c + sn * sn = 1) (hc : 1 / 5 < c)
    (hv5 : 5 ≤ v) (hv12 : v ≤ 12)
    (hvxx : vxx = if |c * v| < 2 then 2 * 2 else |c * v| * |c * v|) :
    25 ≤ vxx + sn * v * (sn * v) ∧ vxx + sn * v * (sn * v) ≤ 144 := by
  by_cases hs : |c * v| < 2
  · rw [if_pos hs] at hvxx
    have h1 := sq_of_steep c sn v hcs hs
    have hcv : c * v < 2 := (abs_lt.mp hs).2
    have hv10 : v < 10 := by nlinarith
    have hsn : sn * sn ≤ 1 := by nlinarith [mul_self_nonneg c]
    have h2 : sn * v * (sn * v) ≤ v * v := by
      have : sn * v * (sn * v) = sn * sn * (v * v) := by ring
      rw [this]
      nlinarith [mul_self_nonneg v]
    rw [hvxx]
    constructor
    · nlinarith
    · nlinarith
  · rw [if_neg hs] at hvxx
    rw [hvxx, sq_of_flat c sn v hcs]
    constructor <;> nlinarith

/-- The same bounds for the velocity `(vx, sn * v)` where `vx` is the value lines 152-156
or lines 167-170 store. -/
theorem bounce_velocity_bounds (c sn v vx : ℝ) (hcs : c * c + sn * sn = 1) (hc : 1 / 5 < c)
    (hv5 : 5 ≤ v) (hv12 : v ≤ 12)
    (hvx : vx = (if |c * v| < 2 then 2 else |c * v|) ∨
      vx = (if |c * v| < 2 then -2 else -|c * v|)) :
    25 ≤ vx * vx + sn * v * (sn * v) ∧ vx * vx + sn * v * (sn * v) ≤ 144 := by
  apply bounce_sq_bounds c sn v (vx * vx) hcs hc hv5 hv12
  rcases hvx with h | h <;> rw [h] <;> split_ifs <;> ring

theorem sqrt_one_forty_four : Real.sqrt 144 = 12 := by
  have h : (144 : ℝ) = 12 * 12 := by norm_num
  rw [h, Real.sqrt_mul_self (by norm_num)]

theorem scalarSpeed_of_speedOk (b : Ball ℝ) (h : SpeedOk b) :
    5 ≤ scalarSpeed realMath b ∧ scalarSpeed realMath b ≤ 12 := by
  obtain ⟨h1, h2⟩ := h
  constructor
  · have := Real.sqrt_le_sqrt h1
    rw [sqrt_twenty_five] at this
    exact this
  · have := Real.sqrt_le_sqrt h2
    rw [sqrt_one_forty_four] at this
    exact this

theorem bounceSpeed_of_speedOk (b : Ball ℝ) (h : SpeedOk b) :
    5 ≤ bounceSpeed realMath b ∧ bounceSpeed realMath b ≤ 12 := by
  have hs := scalarSpeed_of_speedOk b h
  rw [bounceSpeed_eq]
  constructor
  · apply le_min
    · linarith [hs.1]
    · norm_num
  · exact min_le_right _ _

theorem playerBounce_speedOk (s : Game ℝ) (h : SpeedOk s.ball) :
    SpeedOk (playerBounce realMath s).ball := by
  cases hh : hitsPlayer s
  · rw [playerBounce_of_miss _ _ hh]
    exact h
  · have hv := bounceSpeed_of_speedOk s.ball h
    have hn := hit_normalized_bound _ _ _ _ hh
    have hc := cos_bounce_gt _ hn
    unfold SpeedOk
    rw [playerBounce_ball_vx _ _ hh, playerBounce_ball_vy _ _ hh]
    exact bounce_velocity_bounds
      (realMath.cos (bounceAngle realMath s.ball.y s.paddle.player.y))
      (realMath.sin (bounceAngle realMath s.ball.y s.paddle.player.y))
      (bounceSpeed realMath s.ball) _ (cos_sin_self _) hc hv.1 hv.2 (Or.inl rfl)

theorem computerBounce_speedOk (F : Field ℝ) (s : Game ℝ) (h : SpeedOk s.ball) :
    SpeedOk (computerBounce F realMath s).ball := by
  cases hh : hitsComputer F s
  · rw [computerBounce_of_miss _ _ _ hh]
    exact h
  · have hv := bounceSpeed_of_speedOk s.ball h
    have hn := hit_normalized_bound _ _ _ _ hh
    have hc := cos_bounce_gt _ hn
    unfold SpeedOk
    rw [computerBounce_ball_vx _ _ _ hh, computerBounce_ball_vy _ _ _ hh]
    exact bounce_velocity_bounds
      (realMath.cos (bounceAngle realMath s.ball.y s.paddle.computer.y))
      (realMath.sin (bounceAngle realMath s.ball.y s.paddle.computer.y))
      (bounceSpeed realMath s.ball) _ (cos_sin_self _) hc hv.1 hv.2 (Or.inr rfl)

theorem wallBounce_speedOk (F : Field α) (s : Game α) (h : SpeedOk s.ball) :
    SpeedOk (wallBounce F s).ball := by
  unfold wallBounce
  split_ifs
  · unfold SpeedOk at *
    simp only [neg_mul_neg]
    exact h
  · unfold SpeedOk at *
    simp only [neg_mul_neg]
    exact h
  · exact h

theorem resetBall_speedOk (F : Field ℝ) (u : ℝ) (t : Bool) (s : Game ℝ) :
    SpeedOk (resetBall F realMath u t s).ball := by
  have hcs := cos_sin_self (u * Real.pi / 4 - Real.pi / 8)
  have hvx : (resetBall F realMath u t s).ball.vx
      = (if t then -1 else 1) * 5 * Real.cos (u * Real.pi / 4 - Real.pi / 8) := rfl
  have hvy : (resetBall F realMath u t s).ball.vy
      = 5 * Real.sin (u * Real.pi / 4 - Real.pi / 8) := rfl
  unfold SpeedOk
  rw [hvx, hvy]
  cases t <;> simp <;> constructor <;> nlinarith

theorem scoring_speedOk (F : Field ℝ) (u : ℝ) (s : Game ℝ) (h : SpeedOk s.ball) :
    SpeedOk (scoring F realMath u s).ball := by
  unfold scoring
  split_ifs
  · exact resetBall_speedOk F u false _
  · exact resetBall_speedOk F u true _
  · exact h

theorem update_speedOk (F : Field ℝ) (u : ℝ) (s : Game ℝ) (h : SpeedOk s.ball) :
    SpeedOk (update F realMath u s).ball := by
  cases hs : s.isServing
  · rw [update_playing F realMath u s hs]
    apply scoring_speedOk
    unfold beforeScoring beforePaddles
    apply computerBounce_speedOk
    apply playerBounce_speedOk
    apply wallBounce_speedOk
    exact h
  · rw [update_serving F realMath u s hs]
    exact h

theorem step_speedOk (F : Field ℝ) (s : Game ℝ) (e : Event ℝ) (h : SpeedOk s.ball) :
    SpeedOk (step F realMath s e).ball := by
  cases e with
  | tick u => exact update_speedOk F u s h
  | serveTimer i =>
    show SpeedOk (serveEnd i s).ball
    unfold serveEnd
    split_ifs
    · exact h
    · exact h
  | pointer y => exact h
  | keyDown k => cases k <;> exact h
  | keyUp k => cases k <;> exact h
  | restartClick u1 u2 => exact resetBall_speedOk F u2 _ _

theorem speedOk_of_scalarSpeed (b : Ball ℝ)
    (h : 5 ≤ scalarSpeed realMath b ∧ scalarSpeed realMath b ≤ 12) : SpeedOk b := by
  obtain ⟨h1, h2⟩ := h
  have hS : 0 ≤ b.vx * b.vx + b.vy * b.vy :=
    add_nonneg (mul_self_nonneg _) (mul_self_nonneg _)
  have hsq : scalarSpeed realMath b * scalarSpeed realMath b = b.vx * b.vx + b.vy * b.vy :=
    Real.mul_self_sqrt hS
  unfold SpeedOk
  rw [← hsq]
  constructor <;> nlinarith

/-- On a field wider than 42.5 a tick that bounces off the player paddle and misses the
computer paddle ends right there: nobody scores. -/
theorem update_of_player_only_hit (F : Field α) (hW : 85 / 2 < F.W) (M : JSMath α) (u : α)
    (s : Game α) (hs : s.isServing = false) (h : hitsPlayer (beforePaddles F s) = true)
    (hc : hitsComputer F (playerBounce M (beforePaddles F s)) = false) :
    update F M u s = playerBounce M (beforePaddles F s) := by
  have hx := playerBounce_ball_x M _ h
  rw [update_playing _ _ _ _ hs]
  unfold beforeScoring
  rw [computerBounce_of_miss _ _ _ hc]
  have h1 : computerScores (playerBounce M (beforePaddles F s)) = false := by
    unfold computerScores ballR
    rw [hx]
    norm_num
  have h2 : playerScores F (playerBounce M (beforePaddles F s)) = false := by
    unfold playerScores ballR
    rw [hx]
    simp only [decide_eq_false_iff_not, not_le, ge_iff_le]
    linarith
  unfold scoring
  simp [h1, h2]

theorem beforePaddles_speedOk (F : Field α) (s : Game α) (h : SpeedOk s.ball) :
    SpeedOk (beforePaddles F s).ball := by
  unfold beforePaddles
  apply wallBounce_speedOk
  exact h

/-- A centre hit on the player paddle only, with local bounce speed at least 2: the
velocity left by the paddle blocks is `(speed, 0)`. -/
theorem centre_hit_of_fast (F : Field ℝ) (s : Game ℝ)
    (hhit : hitsPlayer (beforePaddles F s) = true)
    (hmiss : hitsComputer F (playerBounce realMath (beforePaddles F s)) = false)
    (hcentre : (beforePaddles F s).ball.y = (beforePaddles F s).paddle.player.y + 55)
    (hfast : 2 ≤ min (21 / 20 * scalarSpeed realMath (beforePaddles F s).ball) 12) :
    beforeScoring F realMath s = playerBounce realMath (beforePaddles F s) ∧
    (playerBounce realMath (beforePaddles F s)).ball.vy = 0 ∧
    (playerBounce realMath (beforePaddles F s)).ball.vx
      = min (21 / 20 * scalarSpeed realMath (beforePaddles F s).ball) 12 := by
  have hang : bounceAngle realMath (beforePaddles F s).ball.y
      (beforePaddles F s).paddle.player.y = 0 := by
    rw [hcentre]
    norm_num [bounceAngle, normalized, paddleHeight]
  have hc : realMath.cos 0 = 1 := Real.cos_zero
  have hsn : realMath.sin 0 = 0 := Real.sin_zero
  refine ⟨?_, ?_, ?_⟩
  · unfold beforeScoring
    exact computerBounce_of_miss _ _ _ hmiss
  · rw [playerBounce_ball_vy _ _ hhit, hang, hsn, zero_mul]
  · rw [playerBounce_ball_vx _ _ hhit, hang, hc, one_mul, bounceSpeed_eq,
      abs_of_pos (by linarith), if_neg (not_lt.mpr hfast)]

/-- Line 217 on the 100 x 500 canvas with the draws `0.25` (side: toward the player) and
`0.5` (launch angle 0). -/
theorem start_field100 : start field100 realMath (1 / 4) (1 / 2) = served100 := by
  have h0 : (1 / 2 : ℝ) * Real.pi / 4 - Real.pi / 8 = 0 := by ring
  have hd : decide ((1 / 4 : ℝ) < 1 / 2) = true := by norm_num
  unfold start
  rw [hd]
  simp only [resetBall, initial, field100, served100, realMath, clearTimeout, h0,
    Real.cos_zero, Real.sin_zero]
  norm_num

/-- One frame of free flight on the 100 x 500 canvas, for the three ball positions the
serve passes through before it reaches the player paddle. -/
theorem flight100_tick :
    update field100 realMath 0 (flight100 50) = flight100 45 ∧
    update field100 realMath 0 (flight100 45) = flight100 40 ∧
    update field100 realMath 0 (flight100 40) = flight100 35 := by
  refine ⟨?_, ?_, ?_⟩ <;>
  · rw [update_playing _ _ _ _ rfl]
    norm_num [scoring, beforeScoring, beforePaddles, computerBounce, playerBounce,
      wallBounce, moveBall, moveComputer, movePlayer, hitsPlayer, hitsComputer,
      circleRectCollision, computerScores, playerScores, flight100, field100, clamp,
      computerX, ballR, paddleHeight, paddleWidth, playerX, compSpeed, paddleSpeed]

/-- From the start of the script on the 100 x 500 canvas, the serve callback and three
frames bring the ball to `(35, 250)`. -/
theorem run_to_flight100 :
    run field100 realMath (start field100 realMath (1 / 4) (1 / 2))
      [Event.serveTimer 0, Event.tick 0, Event.tick 0, Event.tick 0] = flight100 35 := by
  have h1 : serveEnd 0 (served100 : Game ℝ) = flight100 50 := by
    simp [serveEnd, served100, flight100]
  rw [start_field100]
  simp only [run, List.foldl, step]
  rw [h1, flight100_tick.1, flight100_tick.2.1, flight100_tick.2.2]

/-- Trace of `flight100 35` up to line 160: the ball moves to `(30, 250)` and touches
the player paddle at its centre; re-placed at `x = 33.5` it is clear of the computer
paddle. -/
theorem flight100_trace :
    (flight100 (35 : ℝ)).isServing = false ∧
    (beforePaddles field100 (flight100 (35 : ℝ))).ball.y
      = (beforePaddles field100 (flight100 (35 : ℝ))).paddle.player.y + 55 ∧
    hitsPlayer (beforePaddles field100 (flight100 (35 : ℝ))) = true ∧
    hitsComputer field100
      (playerBounce realMath (beforePaddles field100 (flight100 (35 : ℝ)))) = false := by
  have hhit : hitsPlayer (beforePaddles field100 (flight100 (35 : ℝ))) = true := by
    norm_num [beforePaddles, wallBounce, moveBall, moveComputer, movePlayer, hitsPlayer,
      circleRectCollision, flight100, field100, clamp, ballR, paddleHeight, paddleWidth,
      playerX, compSpeed, paddleSpeed]
  refine ⟨rfl, ?_, hhit, ?_⟩
  · norm_num [beforePaddles, wallBounce, moveBall, moveComputer, movePlayer, flight100,
      field100, clamp, ballR, paddleHeight, compSpeed, paddleSpeed]
  · apply hitsComputer_of_left
    rw [playerBounce_ball_x _ _ hhit]
    norm_num [ballR, computerX, field100]

end Frame

section Claims

variable {α : Type} [LinearOrderedField α]

/-- C1. Paddle clamp invariant: on a field with `H ≥ 110`, after `update()` both
`paddle.player.y` and `paddle.computer.y` lie in `[0, H - 110]`, whatever the prior state,
the key flags and the serving flag; and after the `mousemove` handler, for any pointer
coordinate `y`, `paddle.player.y` lies in `[0, H - 110]`. -/
theorem paddle_clamp_invariant (F : Field α) (hH : 110 ≤ F.H) (M : JSMath α) (u y : α)
    (s : Game α) :
    (0 ≤ (update F M u s).paddle.player.y ∧ (update F M u s).paddle.player.y ≤ F.H - 110) ∧
    (0 ≤ (update F M u s).paddle.computer.y ∧
      (update F M u s).paddle.computer.y ≤ F.H - 110) ∧
    (0 ≤ (mousemove F y s).paddle.player.y ∧ (mousemove F y s).paddle.player.y ≤ F.H - 110) := by
  have h0 : (0 : α) ≤ F.H - 110 := sub_nonneg.mpr hH
  rw [update_paddle]
  refine ⟨?_, ?_, ?_⟩
  · exact clamp_bounds _ 0 (F.H - 110) h0
  · exact clamp_bounds _ 0 (F.H - 110) h0
  · exact clamp_bounds _ 0 (F.H - 110) h0

/-- Witness for C1: the 800 x 500 field, a serve-like state with the ball at the centre. -/
theorem paddle_clamp_invariant_witness :
    (110 : ℝ) ≤ (field800 : Field ℝ).H ∧
    ((0 ≤ (update field800 realMath 0 (mkGame 195 195 400 250 (-5) 0 false)).paddle.player.y ∧
      (update field800 realMath 0 (mkGame 195 195 400 250 (-5) 0 false)).paddle.player.y
        ≤ (field800 : Field ℝ).H - 110) ∧
    (0 ≤ (update field800 realMath 0 (mkGame 195 195 400 250 (-5) 0 false)).paddle.computer.y ∧
      (update field800 realMath 0 (mkGame 195 195 400 250 (-5) 0 false)).paddle.computer.y
        ≤ (field800 : Field ℝ).H - 110) ∧
    (0 ≤ (mousemove (field800 : Field ℝ) (-40) (mkGame 195 195 400 250 (-5) 0 false)).paddle.player.y ∧
      (mousemove (field800 : Field ℝ) (-40) (mkGame 195 195 400 250 (-5) 0 false)).paddle.player.y
        ≤ (field800 : Field ℝ).H - 110)) :=
  ⟨by norm_num [field800],
    paddle_clamp_invariant field800 (by norm_num [field800]) realMath 0 (-40)
      (mkGame 195 195 400 250 (-5) 0 false)⟩

/-- C2. Scoring is exclusive and monotone per tick: after `update()` the scores are the
old pair, or the old pair with the player counter one higher, or the old pair with the
computer counter one higher; so no counter decreases and at most one of them moves. -/
theorem scoring_exclusive_monotone (F : Field α) (M : JSMath α) (u : α) (s : Game α) :
    ((update F M u s).score.player = s.score.player ∧
      (update F M u s).score.computer = s.score.computer) ∨
    ((update F M u s).score.player = s.score.player + 1 ∧
      (update F M u s).score.computer = s.score.computer) ∨
    ((update F M u s).score.player = s.score.player ∧
      (update F M u s).score.computer = s.score.computer + 1) := by
  cases h : s.isServing
  · rw [update_playing F M u s h]
    have hs := beforeScoring_score F M s
    unfold scoring
    split_ifs
    · right; right
      rw [resetBall_score]
      simp [hs]
    · right; left
      rw [resetBall_score]
      simp [hs]
    · left
      rw [hs]
      exact ⟨rfl, rfl⟩
  · rw [update_serving F M u s h]
    left
    exact ⟨rfl, rfl⟩

/-- C10. Serving frame condition: a tick taken while `isServing` is true leaves `ball.vx`,
`ball.vy`, `ball.speed`, both scores and `isServing` as they were, and arms no timer.
The ball is not moved by its velocity, nor by a wall, a paddle or a score: whatever its
position and velocity were, it ends at the pin position, `x = 12 + 12 + 9 + 6` if
`vx < 0` and `x = W - 12 - 12 - 9 - 6` otherwise, `y = paddle.player.y + 55` with the
paddle already moved. The whole state after the tick is the old one with the two
paddles moved and the ball position replaced by the pin. -/
theorem serving_frame (F : Field α) (M : JSMath α) (u : α) (s : Game α)
    (h : s.isServing = true) :
    (update F M u s).ball.vx = s.ball.vx ∧
    (update F M u s).ball.vy = s.ball.vy ∧
    (update F M u s).ball.speed = s.ball.speed ∧
    (update F M u s).score.player = s.score.player ∧
    (update F M u s).score.computer = s.score.computer ∧
    (update F M u s).isServing = true ∧
    (update F M u s).serveTimeout = s.serveTimeout ∧
    (update F M u s).timers = s.timers ∧
    (update F M u s).ball.x
      = (if s.ball.vx < 0 then 12 + 12 + 9 + 6 else F.W - 12 - 12 - 9 - 6) ∧
    (update F M u s).ball.y = (update F M u s).paddle.player.y + 55 ∧
    (update F M u s).ball.y
      = clamp (if s.upPressed then s.paddle.player.y - 6
          else if s.downPressed then s.paddle.player.y + 6
          else s.paddle.player.y) 0 (F.H - 110) + 55 ∧
    update F M u s =
      { s with
        paddle := (moveComputer F (movePlayer F s)).paddle
        ball :=
          { s.ball with
            x := if s.ball.vx < 0 then 12 + 12 + 9 + 6 else F.W - 12 - 12 - 9 - 6
            y := clamp (if s.upPressed then s.paddle.player.y - 6
                else if s.downPressed then s.paddle.player.y + 6
                else s.paddle.player.y) 0 (F.H - 110) + 55 } } := by
  have e55 : (paddleHeight : α) / 2 = 55 := by unfold paddleHeight; norm_num
  have hx : (servePin F (moveComputer F (movePlayer F s))).ball.x
      = (if s.ball.vx < 0 then 12 + 12 + 9 + 6 else F.W - 12 - 12 - 9 - 6) := rfl
  have hy : (servePin F (moveComputer F (movePlayer F s))).ball.y
      = (servePin F (moveComputer F (movePlayer F s))).paddle.player.y + paddleHeight / 2 :=
    rfl
  have hy2 : (servePin F (moveComputer F (movePlayer F s))).ball.y
      = clamp (if s.upPressed then s.paddle.player.y - 6
          else if s.downPressed then s.paddle.player.y + 6
          else s.paddle.player.y) 0 (F.H - 110) + paddleHeight / 2 := rfl
  have hall : servePin F (moveComputer F (movePlayer F s)) =
      { s with
        paddle := (moveComputer F (movePlayer F s)).paddle
        ball :=
          { s.ball with
            x := if s.ball.vx < 0 then 12 + 12 + 9 + 6 else F.W - 12 - 12 - 9 - 6
            y := clamp (if s.upPressed then s.paddle.player.y - 6
                else if s.downPressed then s.paddle.player.y + 6
                else s.paddle.player.y) 0 (F.H - 110) + paddleHeight / 2 } } := rfl
  rw [e55] at hy hy2 hall
  rw [update_serving F M u s h]
  exact ⟨rfl, rfl, rfl, rfl, rfl, h, rfl, rfl, hx, hy, hy2, hall⟩

/-- Witness for C10: a serving state whose ball sits at `(18, 0)`, on the top wall and
inside the player paddle (top 0), with velocity `(-30, -7)`. The tick changes none of
the listed fields and puts the ball at the pin `(39, 55)`; integrating the velocity
would have given `(-12, -7)`. -/
theorem serving_frame_witness :
    (mkGame (0 : ℝ) 195 18 0 (-30) (-7) true).isServing = true ∧
    (update field800 realMath 0 (mkGame 0 195 18 0 (-30) (-7) true)).ball.vx = -30 ∧
    (update field800 realMath 0 (mkGame 0 195 18 0 (-30) (-7) true)).ball.vy = -7 ∧
    (update field800 realMath 0 (mkGame 0 195 18 0 (-30) (-7) true)).score.computer = 0 ∧
    (update field800 realMath 0 (mkGame 0 195 18 0 (-30) (-7) true)).isServing = true ∧
    (update field800 realMath 0 (mkGame 0 195 18 0 (-30) (-7) true)).ball.x = 39 ∧
    (update field800 realMath 0 (mkGame 0 195 18 0 (-30) (-7) true)).ball.y = 55 := by
  have h := serving_frame field800 realMath 0 (mkGame (0 : ℝ) 195 18 0 (-30) (-7) true) rfl
  refine ⟨rfl, h.1, h.2.1, h.2.2.2.2.1, h.2.2.2.2.2.1, ?_, ?_⟩
  · rw [h.2.2.2.2.2.2.2.2.1]
    norm_num [mkGame]
  · rw [h.2.2.2.2.2.2.2.2.2.2.1]
    norm_num [mkGame, field800, clamp]

/-- C9 (the code differs). A serving tick with stored `vx = 5 ≥ 0`, player paddle top at
100 and computer paddle top at 300 on the 800 x 500 field: the ball is put at
`x = 776 - 9 - 6 = 761`, next to the computer paddle, but at `y = 155`, the centre of the
player paddle, while the centre of the computer paddle after this tick is `350.8`. -/
theorem serve_pin_computer_side_takes_player_centre :
    (update field800 realMath 0 (mkGame 100 300 400 250 5 0 true)).ball.x = 761 ∧
    (update field800 realMath 0 (mkGame 100 300 400 250 5 0 true)).ball.y = 155 ∧
    (update field800 realMath 0 (mkGame 100 300 400 250 5 0 true)).paddle.player.y + 55
      = 155 ∧
    (update field800 realMath 0 (mkGame 100 300 400 250 5 0 true)).paddle.computer.y + 55
      = 1754 / 5 := by
  rw [update_serving _ _ _ _ rfl]
  norm_num [servePin, moveComputer, movePlayer, mkGame, field800, clamp, computerX, ballR,
    paddleHeight, paddleWidth, playerX, compSpeed, paddleSpeed]

/-- C3 as stated fails. 800 x 500 field, not serving, ball at `(13, 250)` moving with
`vx = -5`, player paddle from `y = 195` to `305`: the moved ball has its left edge at
`8 - 9 ≤ 0`, but it touches the player paddle, is put back at `x = 33.5`, and nobody
scores; the tick stays in play. -/
theorem left_edge_counterexample :
    (mkGame (195 : ℝ) 195 13 250 (-5) 0 false).isServing = false ∧
    (mkGame (195 : ℝ) 195 13 250 (-5) 0 false).ball.x
      + (mkGame (195 : ℝ) 195 13 250 (-5) 0 false).ball.vx - 9 ≤ 0 ∧
    (update field800 realMath 0 (mkGame 195 195 13 250 (-5) 0 false)).score.computer = 0 ∧
    (update field800 realMath 0 (mkGame 195 195 13 250 (-5) 0 false)).isServing = false ∧
    (update field800 realMath 0 (mkGame 195 195 13 250 (-5) 0 false)).ball.x = 67 / 2 := by
  rw [update_playing _ _ _ _ rfl]
  norm_num [scoring, beforeScoring, beforePaddles, computerBounce, playerBounce, wallBounce,
    moveBall, moveComputer, movePlayer, hitsPlayer, hitsComputer, circleRectCollision,
    computerScores, playerScores, mkGame, field800, clamp, computerX, ballR, paddleHeight,
    paddleWidth, playerX, compSpeed, paddleSpeed]

/-- C3, amended. On the 800 x 500 field, in a tick with `isServing = false` whose moved
ball has its left edge at or past `x = 0` and does not touch the player paddle,
`update()` adds exactly 1 to `score.computer`, leaves `score.player`, sets
`isServing = true` and puts the ball at `(400, 250)`. -/
theorem left_edge_scores (M : JSMath α) (u : α) (s : Game α)
    (hs : s.isServing = false) (hx : s.ball.x + s.ball.vx - 9 ≤ 0)
    (hp : hitsPlayer (beforePaddles field800 s) = false) :
    (update field800 M u s).score.computer = s.score.computer + 1 ∧
    (update field800 M u s).score.player = s.score.player ∧
    (update field800 M u s).isServing = true ∧
    (update field800 M u s).ball.x = 400 ∧
    (update field800 M u s).ball.y = 250 := by
  have hbx := beforePaddles_ball_x (field800 : Field α) s
  have hcm : hitsComputer field800 (beforePaddles field800 s) = false := by
    apply hitsComputer_of_left
    rw [hbx]
    unfold ballR computerX field800
    norm_num
    linarith
  have hsc : computerScores (beforePaddles (field800 : Field α) s) = true := by
    unfold computerScores ballR
    rw [hbx]
    exact decide_eq_true hx
  rw [update_playing _ _ _ _ hs]
  unfold beforeScoring
  rw [playerBounce_of_miss M _ hp, computerBounce_of_miss _ M _ hcm]
  unfold scoring
  rw [if_pos hsc]
  refine ⟨?_, ?_, rfl, ?_, ?_⟩
  · rw [resetBall_score]
    simp [beforePaddles_score]
  · rw [resetBall_score]
    simp [beforePaddles_score]
  · simp [resetBall, field800]
    norm_num
  · simp [resetBall, field800]
    norm_num

/-- Witness for C3: ball at `(4, 100)` with `vx = -5`, above the player paddle (top at
195): it passes the left edge untouched and the computer scores. -/
theorem left_edge_scores_witness :
    (mkGame (195 : ℝ) 195 4 100 (-5) 0 false).isServing = false ∧
    (mkGame (195 : ℝ) 195 4 100 (-5) 0 false).ball.x
      + (mkGame (195 : ℝ) 195 4 100 (-5) 0 false).ball.vx - 9 ≤ 0 ∧
    hitsPlayer (beforePaddles field800 (mkGame (195 : ℝ) 195 4 100 (-5) 0 false)) = false ∧
    (update field800 realMath (1 / 2) (mkGame 195 195 4 100 (-5) 0 false)).score.computer
      = 0 + 1 ∧
    (update field800 realMath (1 / 2) (mkGame 195 195 4 100 (-5) 0 false)).isServing = true ∧
    (update field800 realMath (1 / 2) (mkGame 195 195 4 100 (-5) 0 false)).ball.x = 400 := by
  have hx : (mkGame (195 : ℝ) 195 4 100 (-5) 0 false).ball.x
      + (mkGame (195 : ℝ) 195 4 100 (-5) 0 false).ball.vx - 9 ≤ 0 := by
    norm_num [mkGame]
  have hp : hitsPlayer (beforePaddles field800 (mkGame (195 : ℝ) 195 4 100 (-5) 0 false))
      = false := by
    norm_num [beforePaddles, wallBounce, moveBall, moveComputer, movePlayer, hitsPlayer,
      circleRectCollision, mkGame, field800, clamp, ballR, paddleHeight, paddleWidth,
      playerX, compSpeed, paddleSpeed]
  have h := left_edge_scores realMath (1 / 2) (mkGame (195 : ℝ) 195 4 100 (-5) 0 false)
    rfl hx hp
  exact ⟨rfl, hx, hp, h.1, h.2.2.1, h.2.2.2.1⟩

/-- C4 as stated fails. 800 x 500 field, ball at `(4, 100)` with `vx = -5` passing above
the player paddle: the computer scores, `resetBall(false)` runs, and with the draw
`Math.random() = 0.5` the stored `ball.vx` is `+5`, not negative. -/
theorem serve_direction_counterexample :
    (mkGame (195 : ℝ) 195 4 100 (-5) 0 false).isServing = false ∧
    computerScores (beforeScoring field800 realMath (mkGame 195 195 4 100 (-5) 0 false))
      = true ∧
    (update field800 realMath (1 / 2) (mkGame 195 195 4 100 (-5) 0 false)).ball.vx = 5 ∧
    ¬ (update field800 realMath (1 / 2) (mkGame 195 195 4 100 (-5) 0 false)).ball.vx < 0 := by
  have hc : computerScores
      (beforeScoring field800 realMath (mkGame 195 195 4 100 (-5) 0 false)) = true := by
    norm_num [beforeScoring, beforePaddles, computerBounce, playerBounce, wallBounce,
      moveBall, moveComputer, movePlayer, hitsPlayer, hitsComputer, circleRectCollision,
      computerScores, mkGame, field800, clamp, computerX, ballR, paddleHeight,
      paddleWidth, playerX, compSpeed, paddleSpeed]
  have hv := update_vx_of_computerScores field800 realMath (1 / 2)
    (mkGame 195 195 4 100 (-5) 0 false) rfl hc
  have h5 : (update field800 realMath (1 / 2) (mkGame 195 195 4 100 (-5) 0 false)).ball.vx
      = 5 := by
    rw [hv]
    have h0 : (1 / 2 : ℝ) * realMath.PI / 4 - realMath.PI / 8 = 0 := by ring
    rw [h0]
    simp [realMath]
  refine ⟨rfl, hc, h5, ?_⟩
  rw [h5]
  norm_num

/-- C4, amended. In a tick that is not serving, for every draw `u` in `[0, 1)`: if the
computer scores (left edge of the ball at `x ≤ 0` at the scoring test) the re-armed
serve has `ball.vx > 0`, toward the computer paddle; if instead the player scores
(right edge at `x ≥ W`) it has `ball.vx < 0`, toward the player paddle. -/
theorem serve_direction_after_score (F : Field ℝ) (u : ℝ) (h0 : 0 ≤ u) (h1 : u < 1)
    (s : Game ℝ) (hs : s.isServing = false) :
    (computerScores (beforeScoring F realMath s) = true →
      0 < (update F realMath u s).ball.vx) ∧
    (computerScores (beforeScoring F realMath s) = false →
      playerScores F (beforeScoring F realMath s) = true →
      (update F realMath u s).ball.vx < 0) := by
  have hcos : 0 < realMath.cos (u * realMath.PI / 4 - realMath.PI / 8) :=
    serve_angle_cos_pos u h0 h1
  constructor
  · intro h
    rw [update_vx_of_computerScores F realMath u s hs h]
    linarith
  · intro h h2
    rw [update_vx_of_playerScores F realMath u s hs h h2]
    linarith

/-- Witness for C4: the computer scores from a ball at `(4, 100)`, the player scores from
a ball at `(796, 100)`, both with the draw `0.25`. -/
theorem serve_direction_after_score_witness :
    ((0 : ℝ) ≤ 1 / 4 ∧ (1 / 4 : ℝ) < 1) ∧
    0 < (update field800 realMath (1 / 4) (mkGame 195 195 4 100 (-5) 0 false)).ball.vx ∧
    (update field800 realMath (1 / 4) (mkGame 195 195 796 100 5 0 false)).ball.vx < 0 := by
  have hc : computerScores
      (beforeScoring field800 realMath (mkGame 195 195 4 100 (-5) 0 false)) = true := by
    norm_num [beforeScoring, beforePaddles, computerBounce, playerBounce, wallBounce,
      moveBall, moveComputer, movePlayer, hitsPlayer, hitsComputer, circleRectCollision,
      computerScores, mkGame, field800, clamp, computerX, ballR, paddleHeight,
      paddleWidth, playerX, compSpeed, paddleSpeed]
  have hn : computerScores
      (beforeScoring field800 realMath (mkGame 195 195 796 100 5 0 false)) = false := by
    norm_num [beforeScoring, beforePaddles, computerBounce, playerBounce, wallBounce,
      moveBall, moveComputer, movePlayer, hitsPlayer, hitsComputer, circleRectCollision,
      computerScores, mkGame, field800, clamp, computerX, ballR, paddleHeight,
      paddleWidth, playerX, compSpeed, paddleSpeed]
  have hp : playerScores field800
      (beforeScoring field800 realMath (mkGame 195 195 796 100 5 0 false)) = true := by
    norm_num [beforeScoring, beforePaddles, computerBounce, playerBounce, wallBounce,
      moveBall, moveComputer, movePlayer, hitsPlayer, hitsComputer, circleRectCollision,
      playerScores, mkGame, field800, clamp, computerX, ballR, paddleHeight,
      paddleWidth, playerX, compSpeed, paddleSpeed]
  exact ⟨⟨by norm_num, by norm_num⟩,
    (serve_direction_after_score field800 (1 / 4) (by norm_num) (by norm_num)
      (mkGame 195 195 4 100 (-5) 0 false) rfl).1 hc,
    (serve_direction_after_score field800 (1 / 4) (by norm_num) (by norm_num)
      (mkGame 195 195 796 100 5 0 false) rfl).2 hn hp⟩

/-- C5 as stated fails. `endHit`: the ball, velocity `(-5, 0)`, touches the player paddle
64 below its centre, so `normalized = 64/55` and `cos(bounceAngle) * 5.25 < 2`; line 156
forces `vx = 2` on top of the unchanged `vy`, and the speed after the bounce is larger
than `min(1.05 * 5, 12) = 5.25`. The tick ends there, with `ball.vx = 2`. -/
theorem bounce_speed_counterexample :
    hits field800 realMath endHit .player = true ∧
    scalarSpeed realMath (beforeBounce field800 realMath endHit .player).ball = 5 ∧
    (update field800 realMath 0 endHit).ball.vx = 2 ∧
    update field800 realMath 0 endHit = afterBounce field800 realMath endHit .player ∧
    scalarSpeed realMath (afterBounce field800 realMath endHit .player).ball
      ≠ min (21 / 20 * scalarSpeed realMath
          (beforeBounce field800 realMath endHit .player).ball) 12 := by
  obtain ⟨_, hy, hvx, hvy, _, hp, hhit⟩ := endHit_trace
  have h25 : (beforePaddles field800 (endHit : Game ℝ)).ball.vx
      * (beforePaddles field800 (endHit : Game ℝ)).ball.vx
      + (beforePaddles field800 (endHit : Game ℝ)).ball.vy
      * (beforePaddles field800 (endHit : Game ℝ)).ball.vy = 25 := by
    rw [hvx, hvy]
    norm_num
  have hv := bounceSpeed_of_five _ h25
  have hsteep : |Real.cos (bounceAngle realMath
      (beforeBounce field800 realMath endHit .player).ball.y
      (paddleTop (beforeBounce field800 realMath endHit .player) .player))
      * bounceSpeed realMath (beforeBounce field800 realMath endHit .player).ball| < 2 := by
    simp only [beforeBounce, paddleTop]
    rw [hv, hy, hp]
    have hn : bounceAngle realMath 219 100 = 64 / 55 * (Real.pi / 3) := by
      norm_num [bounceAngle, normalized, paddleHeight, realMath]
    rw [hn]
    exact cos_end_hit
  have hlt := afterBounce_speed_steep field800 endHit .player hhit hsteep
  have hupd : update field800 realMath 0 endHit
      = afterBounce field800 realMath endHit .player :=
    update_of_player_hit field800 (by norm_num [field800]) realMath 0 endHit rfl hhit
  refine ⟨hhit, scalarSpeed_of_five _ h25, ?_, hupd, ?_⟩
  · rw [hupd]
    simp only [afterBounce, beforeBounce, paddleTop] at hsteep ⊢
    rw [playerBounce_ball_vx _ _ hhit]
    exact if_pos hsteep
  · rw [← bounceSpeed_eq]
    exact ne_of_gt hlt

/-- C5, amended. For every non-serving tick in which the ball collides with a paddle
and the horizontal part `cos(bounceAngle) * speed` of the new velocity has magnitude at
least 2 (so line 156 / 170 forces nothing), the scalar speed after that paddle's bounce
equals `min(1.05 * sqrt(vx^2 + vy^2), 12)`, with `(vx, vy)` the velocity just before
that paddle's bounce. -/
theorem bounce_speed_law (F : Field ℝ) (s : Game ℝ) (w : PaddleId)
    (hhit : hits F realMath s w = true)
    (hflat : 2 ≤ |Real.cos (bounceAngle realMath (beforeBounce F realMath s w).ball.y
      (paddleTop (beforeBounce F realMath s w) w))
        * bounceSpeed realMath (beforeBounce F realMath s w).ball|) :
    scalarSpeed realMath (afterBounce F realMath s w).ball
      = min (21 / 20 * scalarSpeed realMath (beforeBounce F realMath s w).ball) 12 := by
  rw [← bounceSpeed_eq]
  exact afterBounce_speed_flat F s w hhit hflat

/-- Witness for C5: `centreHit`, where `bounceAngle = 0` and the new `vx` is 5.25. -/
theorem bounce_speed_law_witness :
    hits field800 realMath centreHit .player = true ∧
    2 ≤ |Real.cos (bounceAngle realMath
        (beforeBounce field800 realMath centreHit .player).ball.y
        (paddleTop (beforeBounce field800 realMath centreHit .player) .player))
      * bounceSpeed realMath (beforeBounce field800 realMath centreHit .player).ball| ∧
    scalarSpeed realMath (afterBounce field800 realMath centreHit .player).ball
      = min (21 / 20 * scalarSpeed realMath
          (beforeBounce field800 realMath centreHit .player).ball) 12 := by
  obtain ⟨_, hy, hvx, hvy, _, hp, hhit⟩ := centreHit_trace
  have h25 : (beforePaddles field800 (centreHit : Game ℝ)).ball.vx
      * (beforePaddles field800 (centreHit : Game ℝ)).ball.vx
      + (beforePaddles field800 (centreHit : Game ℝ)).ball.vy
      * (beforePaddles field800 (centreHit : Game ℝ)).ball.vy = 25 := by
    rw [hvx, hvy]
    norm_num
  have hflat : 2 ≤ |Real.cos (bounceAngle realMath
      (beforeBounce field800 realMath centreHit .player).ball.y
      (paddleTop (beforeBounce field800 realMath centreHit .player) .player))
      * bounceSpeed realMath (beforeBounce field800 realMath centreHit .player).ball| := by
    simp only [beforeBounce, paddleTop]
    rw [bounceSpeed_of_five _ h25, hy, hp]
    have hn : bounceAngle realMath 250 195 = 0 := by
      norm_num [bounceAngle, normalized, paddleHeight, realMath]
    rw [hn, Real.cos_zero, abs_of_pos (by norm_num)]
    norm_num
  exact ⟨hhit, hflat, bounce_speed_law field800 centreHit .player hhit hflat⟩

/-- C6. Minimum horizontal speed away from the paddle. In the state left by the two
paddle blocks of a tick (lines 143-171): if the ball collided with the player paddle
and not with the computer paddle then `vx ≥ 2`; if it collided with the computer paddle
then `vx ≤ -2`. On a field wider than 66.5 (resp. 42.5) no score follows such a bounce,
and the same bound holds for `ball.vx` when `update()` returns. -/
theorem min_horizontal_speed (F : Field α) (M : JSMath α) (u : α) (s : Game α) :
    (hits F M s .player = true → hits F M s .computer = false →
      2 ≤ (beforeScoring F M s).ball.vx) ∧
    (hits F M s .computer = true → (beforeScoring F M s).ball.vx ≤ -2) ∧
    (133 / 2 < F.W → s.isServing = false → hits F M s .player = true →
      2 ≤ (update F M u s).ball.vx) ∧
    (85 / 2 < F.W → s.isServing = false → hits F M s .computer = true →
      (update F M u s).ball.vx ≤ -2) := by
  refine ⟨?_, ?_, ?_, ?_⟩
  · intro hp hc
    simp only [hits] at hp hc
    unfold beforeScoring
    rw [computerBounce_of_miss _ _ _ hc]
    exact playerBounce_vx_ge M _ hp
  · intro hc
    exact computerBounce_vx_le F M _ hc
  · intro hW hs hp
    rw [update_of_player_hit F hW M u s hs hp]
    exact playerBounce_vx_ge M _ hp
  · intro hW hs hc
    rw [update_of_computer_hit F hW M u s hs hc]
    exact computerBounce_vx_le F M _ hc

/-- Witness for C6: `centreHit` bounces off the player paddle only, `computerHit` off
the computer paddle, both on the 800 x 500 field. -/
theorem min_horizontal_speed_witness :
    (hits field800 realMath centreHit .player = true ∧
      hits field800 realMath centreHit .computer = false ∧
      hits field800 realMath computerHit .computer = true ∧
      (133 / 2 : ℝ) < (field800 : Field ℝ).W) ∧
    2 ≤ (beforeScoring field800 realMath centreHit).ball.vx ∧
    (beforeScoring field800 realMath computerHit).ball.vx ≤ -2 ∧
    2 ≤ (update field800 realMath 0 centreHit).ball.vx ∧
    (update field800 realMath 0 computerHit).ball.vx ≤ -2 := by
  have hp : hits field800 realMath centreHit .player = true := centreHit_trace.2.2.2.2.2.2
  have hc : hits field800 realMath centreHit .computer = false := by
    apply hitsComputer_of_left
    rw [playerBounce_ball_x _ _ hp]
    norm_num [ballR, computerX, field800]
  have hc2 : hits field800 realMath computerHit .computer = true := by
    simp only [hits]
    rw [playerBounce_of_miss _ _ computerHit_trace.1]
    exact computerHit_trace.2
  have hW : (133 / 2 : ℝ) < (field800 : Field ℝ).W := by norm_num [field800]
  have hW2 : (85 / 2 : ℝ) < (field800 : Field ℝ).W := by norm_num [field800]
  exact ⟨⟨hp, hc, hc2, hW⟩,
    (min_horizontal_speed field800 realMath 0 centreHit).1 hp hc,
    (min_horizontal_speed field800 realMath 0 computerHit).2.1 hc2,
    (min_horizontal_speed field800 realMath 0 centreHit).2.2.1 hW rfl hp,
    (min_horizontal_speed field800 realMath 0 computerHit).2.2.2 hW2 rfl hc2⟩

/-- C7 (the code differs). `cornerHit`: the moved ball `(30, 215)` is within 9 of the
corner `(24, 210)` of the player paddle (top 100, centre 155), so
`circleRectCollision` reports a hit, while `normalized = (215 - 155) / 55 = 12/11 > 1`
and `bounceAngle = (12/11) * π/3` exceeds `π/3`. -/
theorem normalized_exceeds_one :
    hits field800 realMath cornerHit .player = true ∧
    normalized (beforeBounce field800 realMath cornerHit .player).ball.y
      (paddleTop (beforeBounce field800 realMath cornerHit .player) .player) = 12 / 11 ∧
    ¬ normalized (beforeBounce field800 realMath cornerHit .player).ball.y
      (paddleTop (beforeBounce field800 realMath cornerHit .player) .player) ≤ 1 ∧
    Real.pi / 3 < bounceAngle realMath
      (beforeBounce field800 realMath cornerHit .player).ball.y
      (paddleTop (beforeBounce field800 realMath cornerHit .player) .player) := by
  obtain ⟨_, hy, hp, hhit⟩ := cornerHit_trace
  have hn : normalized (beforeBounce field800 realMath cornerHit .player).ball.y
      (paddleTop (beforeBounce field800 realMath cornerHit .player) .player) = 12 / 11 := by
    simp only [beforeBounce, paddleTop]
    rw [hy, hp]
    norm_num [normalized, paddleHeight]
  refine ⟨hhit, hn, ?_, ?_⟩
  · rw [hn]
    norm_num
  · unfold bounceAngle
    rw [hn]
    have hpi : 0 < realMath.PI := Real.pi_pos
    have hpi2 : realMath.PI = Real.pi := rfl
    rw [hpi2] at hpi ⊢
    linarith

/-- C8 as stated fails. `centreHit`: after the bounce off the player paddle the velocity
is `(5.25, 0)`, so `vx^2 + vy^2 = 441/16`, while `ball.speed` is still 5: the bounce
computes a local `speed` and never assigns `ball.speed`. -/
theorem stored_speed_counterexample :
    hits field800 realMath centreHit .player = true ∧
    (afterBounce field800 realMath centreHit .player).ball.speed = 5 ∧
    (afterBounce field800 realMath centreHit .player).ball.vx ^ 2
      + (afterBounce field800 realMath centreHit .player).ball.vy ^ 2 = 441 / 16 ∧
    (afterBounce field800 realMath centreHit .player).ball.vx ^ 2
      + (afterBounce field800 realMath centreHit .player).ball.vy ^ 2
      ≠ (afterBounce field800 realMath centreHit .player).ball.speed ^ 2 := by
  obtain ⟨_, hy, hvx, hvy, hsp, hp, hhit⟩ := centreHit_trace
  have h25 : (beforePaddles field800 (centreHit : Game ℝ)).ball.vx
      * (beforePaddles field800 (centreHit : Game ℝ)).ball.vx
      + (beforePaddles field800 (centreHit : Game ℝ)).ball.vy
      * (beforePaddles field800 (centreHit : Game ℝ)).ball.vy = 25 := by
    rw [hvx, hvy]
    norm_num
  have hv : bounceSpeed realMath (beforeBounce field800 realMath centreHit .player).ball
      = 21 / 4 := bounceSpeed_of_five _ h25
  have hflat : 2 ≤ |Real.cos (bounceAngle realMath
      (beforeBounce field800 realMath centreHit .player).ball.y
      (paddleTop (beforeBounce field800 realMath centreHit .player) .player))
      * bounceSpeed realMath (beforeBounce field800 realMath centreHit .player).ball| := by
    rw [hv]
    simp only [beforeBounce, paddleTop]
    rw [hy, hp]
    have hn : bounceAngle realMath 250 195 = 0 := by
      norm_num [bounceAngle, normalized, paddleHeight, realMath]
    rw [hn, Real.cos_zero, abs_of_pos (by norm_num)]
    norm_num
  have hsq := afterBounce_flat field800 centreHit .player hhit hflat
  rw [hv] at hsq
  have hs5 : (afterBounce field800 realMath centreHit .player).ball.speed = 5 := by
    rw [afterBounce_ball_speed]
    exact hsp
  have h1 : (afterBounce field800 realMath centreHit .player).ball.vx ^ 2
      + (afterBounce field800 realMath centreHit .player).ball.vy ^ 2 = 441 / 16 := by
    rw [sq, sq, hsq]
    norm_num
  refine ⟨hhit, hs5, h1, ?_⟩
  rw [h1, hs5]
  norm_num

/-- C8, amended. Immediately after a paddle bounce of a non-serving tick whose horizontal
part `cos(bounceAngle) * speed` has magnitude at least 2, the velocity agrees with the
local `speed = min(1.05 * sqrt(vx^2 + vy^2), 12)` of that bounce, `vx'^2 + vy'^2 =
speed^2` with `speed ≤ 12`; the field `ball.speed` is not written by the bounce. -/
theorem stored_speed_after_bounce (F : Field ℝ) (s : Game ℝ) (w : PaddleId)
    (hhit : hits F realMath s w = true)
    (hflat : 2 ≤ |Real.cos (bounceAngle realMath (beforeBounce F realMath s w).ball.y
      (paddleTop (beforeBounce F realMath s w) w))
        * bounceSpeed realMath (beforeBounce F realMath s w).ball|) :
    (afterBounce F realMath s w).ball.vx ^ 2 + (afterBounce F realMath s w).ball.vy ^ 2
      = (min (21 / 20 * scalarSpeed realMath (beforeBounce F realMath s w).ball) 12) ^ 2 ∧
    min (21 / 20 * scalarSpeed realMath (beforeBounce F realMath s w).ball) 12 ≤ 12 ∧
    (afterBounce F realMath s w).ball.speed = (beforeBounce F realMath s w).ball.speed := by
  rw [← bounceSpeed_eq]
  refine ⟨?_, bounceSpeed_le _ _, afterBounce_ball_speed F realMath s w⟩
  rw [sq, sq, sq]
  exact afterBounce_flat F s w hhit hflat

/-- Witness for C8: `computerHit`, a centre hit on the computer paddle. -/
theorem stored_speed_after_bounce_witness :
    hits field800 realMath computerHit .computer = true ∧
    2 ≤ |Real.cos (bounceAngle realMath
        (beforeBounce field800 realMath computerHit .computer).ball.y
        (paddleTop (beforeBounce field800 realMath computerHit .computer) .computer))
      * bounceSpeed realMath (beforeBounce field800 realMath computerHit .computer).ball| ∧
    (afterBounce field800 realMath computerHit .computer).ball.vx ^ 2
      + (afterBounce field800 realMath computerHit .computer).ball.vy ^ 2
      = (min (21 / 20 * scalarSpeed realMath
          (beforeBounce field800 realMath computerHit .computer).ball) 12) ^ 2 := by
  have hb : beforeBounce field800 realMath (computerHit : Game ℝ) .computer
      = beforePaddles field800 computerHit := playerBounce_of_miss _ _ computerHit_trace.1
  have hhit : hits field800 realMath computerHit .computer = true := by
    simp only [hits]
    rw [playerBounce_of_miss _ _ computerHit_trace.1]
    exact computerHit_trace.2
  have h25 : (beforePaddles field800 (computerHit : Game ℝ)).ball.vx
      * (beforePaddles field800 (computerHit : Game ℝ)).ball.vx
      + (beforePaddles field800 (computerHit : Game ℝ)).ball.vy
      * (beforePaddles field800 (computerHit : Game ℝ)).ball.vy = 25 := by
    norm_num [computerHit, beforePaddles, wallBounce, moveBall, moveComputer, movePlayer,
      mkGame, field800, clamp, ballR, paddleHeight, compSpeed, paddleSpeed]
  have hflat : 2 ≤ |Real.cos (bounceAngle realMath
      (beforeBounce field800 realMath computerHit .computer).ball.y
      (paddleTop (beforeBounce field800 realMath computerHit .computer) .computer))
      * bounceSpeed realMath
        (beforeBounce field800 realMath computerHit .computer).ball| := by
    rw [hb, bounceSpeed_of_five _ h25]
    have hn : bounceAngle realMath (beforePaddles field800 (computerHit : Game ℝ)).ball.y
        (paddleTop (beforePaddles field800 (computerHit : Game ℝ)) .computer) = 0 := by
      norm_num [bounceAngle, normalized, paddleTop, computerHit, beforePaddles, wallBounce,
        moveBall, moveComputer, movePlayer, mkGame, field800, clamp, ballR, paddleHeight,
        compSpeed, paddleSpeed]
    rw [hn, Real.cos_zero, abs_of_pos (by norm_num)]
    norm_num
  exact ⟨hhit, hflat, (stored_speed_after_bounce field800 computerHit .computer hhit hflat).1⟩

/-- C11. Restart postcondition: from any state and for either outcome of the side draw
`u1` (and any draw `u2` of the launch angle), the restart handler leaves both scores at
0, both paddles at `y = (H - 110) / 2`, the ball at `(W/2, H/2)` and `isServing` true. -/
theorem restart_post (F : Field α) (M : JSMath α) (u1 u2 : α) (s : Game α) :
    (restart F M u1 u2 s).score.player = 0 ∧
    (restart F M u1 u2 s).score.computer = 0 ∧
    (restart F M u1 u2 s).paddle.player.y = (F.H - 110) / 2 ∧
    (restart F M u1 u2 s).paddle.computer.y = (F.H - 110) / 2 ∧
    (restart F M u1 u2 s).ball.x = F.W / 2 ∧
    (restart F M u1 u2 s).ball.y = F.H / 2 ∧
    (restart F M u1 u2 s).isServing = true :=
  ⟨rfl, rfl, rfl, rfl, rfl, rfl, rfl⟩

/-- C12. `resetBall` postcondition: for every draw `u` in `[0, 1)` and both values of
`toPlayer`, the ball is at `(W/2, H/2)` with `ball.speed = 5` and `isServing = true`;
the launch angle `a = u * π/4 - π/8` lies in `[-π/8, π/8]`; the velocity is
`(dir * 5 * cos a, 5 * sin a)`, so `vx^2 + vy^2 = 25` and `|vy| ≤ 5 * sin(π/8)`; and
`vx < 0` exactly when `toPlayer` is true, `vx > 0` otherwise. -/
theorem resetBall_post (F : Field ℝ) (u : ℝ) (h0 : 0 ≤ u) (h1 : u < 1) (toPlayer : Bool)
    (s : Game ℝ) :
    (resetBall F realMath u toPlayer s).ball.x = F.W / 2 ∧
    (resetBall F realMath u toPlayer s).ball.y = F.H / 2 ∧
    (resetBall F realMath u toPlayer s).ball.speed = 5 ∧
    (resetBall F realMath u toPlayer s).isServing = true ∧
    (-(Real.pi / 8) ≤ u * Real.pi / 4 - Real.pi / 8 ∧
      u * Real.pi / 4 - Real.pi / 8 ≤ Real.pi / 8) ∧
    (resetBall F realMath u toPlayer s).ball.vx
      = (if toPlayer then -1 else 1) * 5 * Real.cos (u * Real.pi / 4 - Real.pi / 8) ∧
    (resetBall F realMath u toPlayer s).ball.vy
      = 5 * Real.sin (u * Real.pi / 4 - Real.pi / 8) ∧
    (resetBall F realMath u toPlayer s).ball.vx ^ 2
      + (resetBall F realMath u toPlayer s).ball.vy ^ 2 = 25 ∧
    |(resetBall F realMath u toPlayer s).ball.vy| ≤ 5 * Real.sin (Real.pi / 8) ∧
    ((resetBall F realMath u toPlayer s).ball.vx < 0 ↔ toPlayer = true) ∧
    (toPlayer = false → 0 < (resetBall F realMath u toPlayer s).ball.vx) := by
  have hpi := Real.pi_pos
  have ha : 0 ≤ u * Real.pi := mul_nonneg h0 hpi.le
  have hb : u * Real.pi < Real.pi := by nlinarith
  have hlo : -(Real.pi / 8) ≤ u * Real.pi / 4 - Real.pi / 8 := by linarith
  have hhi : u * Real.pi / 4 - Real.pi / 8 ≤ Real.pi / 8 := by linarith
  have hcos := serve_angle_cos_pos u h0 h1
  have hcs := Real.cos_sq_add_sin_sq (u * Real.pi / 4 - Real.pi / 8)
  have hvx : (resetBall F realMath u toPlayer s).ball.vx
      = (if toPlayer then -1 else 1) * 5 * Real.cos (u * Real.pi / 4 - Real.pi / 8) := rfl
  have hvy : (resetBall F realMath u toPlayer s).ball.vy
      = 5 * Real.sin (u * Real.pi / 4 - Real.pi / 8) := rfl
  have hs1 : Real.sin (u * Real.pi / 4 - Real.pi / 8) ≤ Real.sin (Real.pi / 8) :=
    Real.sin_le_sin_of_le_of_le_pi_div_two (by linarith) (by linarith) hhi
  have hs2 : Real.sin (-(Real.pi / 8)) ≤ Real.sin (u * Real.pi / 4 - Real.pi / 8) :=
    Real.sin_le_sin_of_le_of_le_pi_div_two (by linarith) (by linarith) hlo
  rw [Real.sin_neg] at hs2
  refine ⟨rfl, rfl, rfl, rfl, ⟨hlo, hhi⟩, hvx, hvy, ?_, ?_, ?_, ?_⟩
  · rw [hvx, hvy]
    cases toPlayer <;> simp <;> nlinarith
  · rw [hvy, abs_le]
    constructor <;> linarith
  · rw [hvx]
    cases toPlayer
    · simp
      linarith
    · simp
      linarith
  · intro ht
    rw [hvx, ht]
    simp
    linarith

/-- Witness for C12: the draw `u = 1/4`, a serve toward the player, from `centreHit`. -/
theorem resetBall_post_witness :
    ((0 : ℝ) ≤ 1 / 4 ∧ (1 / 4 : ℝ) < 1) ∧
    (resetBall field800 realMath (1 / 4) true centreHit).ball.speed = 5 ∧
    (resetBall field800 realMath (1 / 4) true centreHit).ball.vx ^ 2
      + (resetBall field800 realMath (1 / 4) true centreHit).ball.vy ^ 2 = 25 ∧
    (resetBall field800 realMath (1 / 4) true centreHit).ball.vx < 0 := by
  have h := resetBall_post field800 (1 / 4) (by norm_num) (by norm_num) true centreHit
  exact ⟨⟨by norm_num, by norm_num⟩, h.2.2.1, h.2.2.2.2.2.2.2.1,
    h.2.2.2.2.2.2.2.2.2.1.mpr rfl⟩

/-- C13 as stated fails. 800 x 500 field, computer paddle at `y = 390`, the lowest
position in bounds, ball centre at `y = 465`, 20 below the paddle centre 445: the step
`+4.2` is cut by the clamp and the paddle stays at 390. -/
theorem computer_follow_counterexample :
    ((0 : ℝ) ≤ (mkGame (195 : ℝ) 390 400 465 5 0 false).paddle.computer.y ∧
      (mkGame (195 : ℝ) 390 400 465 5 0 false).paddle.computer.y
        ≤ (field800 : Field ℝ).H - 110) ∧
    (mkGame (195 : ℝ) 390 400 465 5 0 false).paddle.computer.y + 55
      = (mkGame (195 : ℝ) 390 400 465 5 0 false).ball.y - 20 ∧
    (update field800 realMath 0 (mkGame 195 390 400 465 5 0 false)).paddle.computer.y
      = 390 ∧
    (update field800 realMath 0 (mkGame 195 390 400 465 5 0 false)).paddle.computer.y
      ≠ (mkGame (195 : ℝ) 390 400 465 5 0 false).paddle.computer.y + 21 / 5 := by
  rw [update_paddle]
  norm_num [moveComputer, movePlayer, mkGame, field800, clamp, paddleHeight, compSpeed,
    paddleSpeed]

/-- C13, amended. For every field height `H` and every state in which the computer
paddle is in bounds with room for one step below it (`0 ≤ y` and `y + 4.2 ≤ H - 110`)
and its centre is exactly 20 above the ball centre, `update()` moves the computer
paddle down by exactly `compSpeed`: its `y` afterwards is the old `y` plus 4.2. -/
theorem computer_follow_exact (F : Field α) (M : JSMath α) (u : α) (s : Game α)
    (h0 : 0 ≤ s.paddle.computer.y) (hroom : s.paddle.computer.y + 21 / 5 ≤ F.H - 110)
    (hc : s.paddle.computer.y + 55 = s.ball.y - 20) :
    (update F M u s).paddle.computer.y = s.paddle.computer.y + 21 / 5 := by
  rw [update_paddle]
  have h1 : (movePlayer F s).paddle.computer.y = s.paddle.computer.y := rfl
  have h2 : (movePlayer F s).ball.y = s.ball.y := rfl
  have hlt : s.paddle.computer.y + paddleHeight / 2 < s.ball.y - 6 := by
    unfold paddleHeight
    linarith
  simp only [moveComputer, h1, h2, if_pos hlt]
  unfold clamp compSpeed paddleHeight
  rw [min_eq_right hroom, max_eq_right (by linarith)]

/-- Witness for C13: computer paddle at `y = 195`, ball centre at `y = 270`. -/
theorem computer_follow_exact_witness :
    ((0 : ℝ) ≤ (mkGame (195 : ℝ) 195 400 270 5 0 false).paddle.computer.y ∧
      (mkGame (195 : ℝ) 195 400 270 5 0 false).paddle.computer.y + 21 / 5
        ≤ (field800 : Field ℝ).H - 110 ∧
      (mkGame (195 : ℝ) 195 400 270 5 0 false).paddle.computer.y + 55
        = (mkGame (195 : ℝ) 195 400 270 5 0 false).ball.y - 20) ∧
    (update field800 realMath 0 (mkGame 195 195 400 270 5 0 false)).paddle.computer.y
      = (mkGame (195 : ℝ) 195 400 270 5 0 false).paddle.computer.y + 21 / 5 := by
  have h0 : (0 : ℝ) ≤ (mkGame (195 : ℝ) 195 400 270 5 0 false).paddle.computer.y := by
    norm_num [mkGame]
  have hroom : (mkGame (195 : ℝ) 195 400 270 5 0 false).paddle.computer.y + 21 / 5
      ≤ (field800 : Field ℝ).H - 110 := by
    norm_num [mkGame, field800]
  have hc : (mkGame (195 : ℝ) 195 400 270 5 0 false).paddle.computer.y + 55
      = (mkGame (195 : ℝ) 195 400 270 5 0 false).ball.y - 20 := by
    norm_num [mkGame]
  exact ⟨⟨h0, hroom, hc⟩, computer_follow_exact field800 realMath 0 _ h0 hroom hc⟩

/-- C15. Pointer-follow positioning: for every field height and every pointer coordinate
`y`, after the `mousemove` handler the vertical centre `paddle.player.y + 55` of the
player paddle equals `clamp(y, 55, H - 55)`, the value the spec wording gives: clamping
the top edge with `clamp(y - 55, 0, H - 110)` is the same as clamping the centre. -/
theorem pointer_follow_centre (F : Field α) (y : α) (s : Game α) :
    (mousemove F y s).paddle.player.y + 55 = clamp y 55 (F.H - 55) ∧
    (mousemove F y s).paddle.player.y + paddleHeight / 2 = specTargetCentre F y := by
  have h : (mousemove F y s).paddle.player.y
      = clamp (y - paddleHeight / 2) 0 (F.H - paddleHeight) := rfl
  rw [h]
  unfold specTargetCentre clamp paddleHeight
  have e1 : (110 : α) / 2 = 55 := by norm_num
  rw [e1, ← max_add_add_right, ← min_add_add_right]
  constructor
  · congr 1
    · norm_num
    · congr 1 <;> ring
  · congr 1
    · norm_num
    · congr 1 <;> ring

/-- C17. Wall bounce keeps the ball inside the field vertically: on a field with
`H ≥ 110`, after `update()` (serving or not, scoring or not) `9 ≤ ball.y ≤ H - 9`; and
in a non-serving tick, if the moved ball has `ball.y - 9 ≤ 0` then before the paddle
tests `ball.y = 9` and `vy` is negated, and if it has `ball.y + 9 ≥ H` then
`ball.y = H - 9` and `vy` is negated. -/
theorem wall_keeps_ball_inside (F : Field α) (hH : 110 ≤ F.H) (M : JSMath α) (u : α)
    (s : Game α) :
    (9 ≤ (update F M u s).ball.y ∧ (update F M u s).ball.y ≤ F.H - 9) ∧
    ((moveBall (moveComputer F (movePlayer F s))).ball.y - 9 ≤ 0 →
      (beforePaddles F s).ball.y = 9 ∧
      (beforePaddles F s).ball.vy = -(moveBall (moveComputer F (movePlayer F s))).ball.vy) ∧
    ((moveBall (moveComputer F (movePlayer F s))).ball.y + 9 ≥ F.H →
      (beforePaddles F s).ball.y = F.H - 9 ∧
      (beforePaddles F s).ball.vy = -(moveBall (moveComputer F (movePlayer F s))).ball.vy) := by
  refine ⟨?_, ?_, ?_⟩
  · cases h : s.isServing
    · rw [update_playing F M u s h]
      have hb := wallBounce_ball_y_bounds F (by linarith)
        (moveBall (moveComputer F (movePlayer F s)))
      rcases scoring_ball_y F M u (beforeScoring F M s) with h1 | h1
      · rw [h1, beforeScoring_ball_y]
        exact hb
      · rw [h1]
        constructor <;> linarith
    · rw [update_serving F M u s h]
      have hp := clamp_bounds
        (if s.upPressed then s.paddle.player.y - paddleSpeed
          else if s.downPressed then s.paddle.player.y + paddleSpeed
          else s.paddle.player.y) 0 (F.H - paddleHeight) (by unfold paddleHeight; linarith)
      have hy : (servePin F (moveComputer F (movePlayer F s))).ball.y
          = clamp (if s.upPressed then s.paddle.player.y - paddleSpeed
              else if s.downPressed then s.paddle.player.y + paddleSpeed
              else s.paddle.player.y) 0 (F.H - paddleHeight) + paddleHeight / 2 := rfl
      rw [hy]
      unfold paddleHeight at hp ⊢
      constructor <;> linarith [hp.1, hp.2]
  · intro h
    unfold beforePaddles wallBounce ballR
    rw [if_pos h]
    exact ⟨rfl, rfl⟩
  · intro h
    have hn : ¬ (moveBall (moveComputer F (movePlayer F s))).ball.y - 9 ≤ 0 := by
      intro h2
      have h3 : F.H ≤ (moveBall (moveComputer F (movePlayer F s))).ball.y + 9 := h
      linarith
    unfold beforePaddles wallBounce ballR
    rw [if_neg hn, if_pos h]
    exact ⟨rfl, rfl⟩

/-- Witness for C17: 800 x 500 field, a ball at `y = 12` moving up with `vy = -5`. -/
theorem wall_keeps_ball_inside_witness :
    (110 : ℝ) ≤ (field800 : Field ℝ).H ∧
    (moveBall (moveComputer field800
      (movePlayer field800 (mkGame (195 : ℝ) 195 400 12 3 (-5) false)))).ball.y - 9 ≤ 0 ∧
    (9 ≤ (update field800 realMath 0 (mkGame 195 195 400 12 3 (-5) false)).ball.y ∧
      (update field800 realMath 0 (mkGame 195 195 400 12 3 (-5) false)).ball.y
        ≤ (field800 : Field ℝ).H - 9) ∧
    (beforePaddles field800 (mkGame (195 : ℝ) 195 400 12 3 (-5) false)).ball.y = 9 := by
  have hH : (110 : ℝ) ≤ (field800 : Field ℝ).H := by norm_num [field800]
  have hm : (moveBall (moveComputer field800
      (movePlayer field800 (mkGame (195 : ℝ) 195 400 12 3 (-5) false)))).ball.y - 9 ≤ 0 := by
    norm_num [moveBall, moveComputer, movePlayer, mkGame]
  have h := wall_keeps_ball_inside field800 hH realMath 0 (mkGame 195 195 400 12 3 (-5) false)
  exact ⟨hH, hm, h.1, (h.2.1 hm).1⟩

/-- C18. The computer step equals its reference definition, dead zone included: with
`c = paddle.computer.y + 55` and `b = ball.y` read before the tick, `paddle.computer.y`
after `update()` is `clamp(y + d, 0, H - 110)` with `d = 4.2` if `c < b - 6`, `d = -4.2`
if `c > b + 6`, `d = 0` otherwise. In particular a paddle in bounds with `|c - b| ≤ 6`
does not move, and a paddle in bounds never moves by more than 4.2 in one tick. -/
theorem computer_step_reference (F : Field α) (M : JSMath α) (u : α) (s : Game α) :
    (update F M u s).paddle.computer.y
      = clamp (s.paddle.computer.y
          + (if s.paddle.computer.y + 55 < s.ball.y - 6 then 21 / 5
            else if s.paddle.computer.y + 55 > s.ball.y + 6 then -(21 / 5) else 0))
          0 (F.H - 110) ∧
    (update F M u s).paddle.computer.y
      = specComputerStep F s.paddle.computer.y s.ball.y ∧
    (0 ≤ s.paddle.computer.y → s.paddle.computer.y ≤ F.H - 110 →
      |s.paddle.computer.y + 55 - s.ball.y| ≤ 6 →
      (update F M u s).paddle.computer.y = s.paddle.computer.y) ∧
    (0 ≤ s.paddle.computer.y → s.paddle.computer.y ≤ F.H - 110 →
      |(update F M u s).paddle.computer.y - s.paddle.computer.y| ≤ 21 / 5) := by
  have e55 : (paddleHeight : α) / 2 = 55 := by unfold paddleHeight; norm_num
  have hupd : (update F M u s).paddle.computer.y
      = clamp (if s.paddle.computer.y + paddleHeight / 2 < s.ball.y - 6 then
            s.paddle.computer.y + compSpeed
          else if s.paddle.computer.y + paddleHeight / 2 > s.ball.y + 6 then
            s.paddle.computer.y - compSpeed
          else s.paddle.computer.y) 0 (F.H - paddleHeight) := by
    rw [update_paddle]
    rfl
  have hform : (update F M u s).paddle.computer.y
      = clamp (s.paddle.computer.y
          + (if s.paddle.computer.y + 55 < s.ball.y - 6 then 21 / 5
            else if s.paddle.computer.y + 55 > s.ball.y + 6 then -(21 / 5) else 0))
          0 (F.H - 110) := by
    rw [hupd, e55]
    unfold compSpeed paddleHeight
    congr 1
    split_ifs <;> ring
  refine ⟨hform, ?_, ?_, ?_⟩
  · rw [hform]
    unfold specComputerStep
    simp only [e55]
    unfold compSpeed paddleHeight
    rfl
  · intro h0 h1 hd
    rw [hform]
    have hd2 := abs_le.mp hd
    have n1 : ¬ s.paddle.computer.y + 55 < s.ball.y - 6 := by
      intro h; linarith [hd2.1]
    have n2 : ¬ s.paddle.computer.y + 55 > s.ball.y + 6 := by
      intro h; linarith [hd2.2]
    rw [if_neg n1, if_neg n2, add_zero]
    exact clamp_of_mem _ _ _ h0 h1
  · intro h0 h1
    rw [hform]
    unfold clamp
    rw [abs_le]
    split_ifs with a1 a2
    · constructor
      · have := le_max_left (0 : α) (min (F.H - 110) (s.paddle.computer.y + 21 / 5))
        have h3 : s.paddle.computer.y ≤ min (F.H - 110) (s.paddle.computer.y + 21 / 5) :=
          le_min h1 (by linarith)
        have h4 := le_max_right (0 : α) (min (F.H - 110) (s.paddle.computer.y + 21 / 5))
        linarith
      · have h3 : max 0 (min (F.H - 110) (s.paddle.computer.y + 21 / 5))
            ≤ s.paddle.computer.y + 21 / 5 :=
          max_le (by linarith) (min_le_right _ _)
        linarith
    · constructor
      · have h3 : s.paddle.computer.y + -(21 / 5)
            ≤ max 0 (min (F.H - 110) (s.paddle.computer.y + -(21 / 5))) := by
          rcases le_total (F.H - 110) (s.paddle.computer.y + -(21 / 5)) with h5 | h5
          · linarith
          · rw [min_eq_right h5]
            exact le_max_right _ _
        linarith
      · have h3 : max 0 (min (F.H - 110) (s.paddle.computer.y + -(21 / 5)))
            ≤ s.paddle.computer.y :=
          max_le h0 (le_trans (min_le_right _ _) (by linarith))
        linarith
    · rw [add_zero, min_eq_right h1, max_eq_right h0]
      constructor <;> linarith

/-- Witness for C18: a paddle in bounds at `y = 195` (centre 250) with the ball centre
at `y = 254`, inside the dead zone. -/
theorem computer_step_reference_witness :
    ((0 : ℝ) ≤ (mkGame (195 : ℝ) 195 400 254 5 0 false).paddle.computer.y ∧
      (mkGame (195 : ℝ) 195 400 254 5 0 false).paddle.computer.y
        ≤ (field800 : Field ℝ).H - 110 ∧
      |(mkGame (195 : ℝ) 195 400 254 5 0 false).paddle.computer.y + 55
        - (mkGame (195 : ℝ) 195 400 254 5 0 false).ball.y| ≤ 6) ∧
    (update field800 realMath 0 (mkGame 195 195 400 254 5 0 false)).paddle.computer.y
      = (mkGame (195 : ℝ) 195 400 254 5 0 false).paddle.computer.y ∧
    |(update field800 realMath 0 (mkGame 195 195 400 254 5 0 false)).paddle.computer.y
      - (mkGame (195 : ℝ) 195 400 254 5 0 false).paddle.computer.y| ≤ 21 / 5 := by
  have h0 : (0 : ℝ) ≤ (mkGame (195 : ℝ) 195 400 254 5 0 false).paddle.computer.y := by
    norm_num [mkGame]
  have h1 : (mkGame (195 : ℝ) 195 400 254 5 0 false).paddle.computer.y
      ≤ (field800 : Field ℝ).H - 110 := by
    norm_num [mkGame, field800]
  have hd : |(mkGame (195 : ℝ) 195 400 254 5 0 false).paddle.computer.y + 55
      - (mkGame (195 : ℝ) 195 400 254 5 0 false).ball.y| ≤ 6 := by
    rw [abs_le]
    norm_num [mkGame]
  have h := computer_step_reference field800 realMath 0 (mkGame 195 195 400 254 5 0 false)
  exact ⟨⟨h0, h1, hd⟩, h.2.2.1 h0 h1 hd, h.2.2.2 h0 h1⟩

/-- C19. `circleRectCollision` decides geometric intersection: for `r ≥ 0`, `rw ≥ 0`,
`rh ≥ 0` it returns true exactly when some point `(px, py)` of the closed rectangle
`[rx, rx + rw] x [ry, ry + rh]` satisfies `(cx - px)^2 + (cy - py)^2 ≤ r^2`. -/
theorem circleRect_iff_intersect (cx cy r rx ry rw rh : α) (_hr : 0 ≤ r) (hw : 0 ≤ rw)
    (hh : 0 ≤ rh) :
    circleRectCollision cx cy r rx ry rw rh = true ↔
      ∃ px py, rx ≤ px ∧ px ≤ rx + rw ∧ ry ≤ py ∧ py ≤ ry + rh ∧
        (cx - px) ^ 2 + (cy - py) ^ 2 ≤ r ^ 2 := by
  unfold circleRectCollision
  simp only [decide_eq_true_eq]
  constructor
  · intro h
    have hx := clamp_bounds cx rx (rx + rw) (by linarith)
    have hy := clamp_bounds cy ry (ry + rh) (by linarith)
    refine ⟨clamp cx rx (rx + rw), clamp cy ry (ry + rh), hx.1, hx.2, hy.1, hy.2, ?_⟩
    rw [sq, sq, sq]
    exact h
  · rintro ⟨px, py, h1, h2, h3, h4, h5⟩
    have hx := clamp_nearest cx rx (rx + rw) px h1 h2
    have hy := clamp_nearest cy ry (ry + rh) py h3 h4
    rw [sq, sq, sq] at h5
    linarith

/-- Witness for C19: the ball of radius 9 at `(30, 215)` and the player rectangle with
top left corner `(12, 100)`; the corner `(24, 210)` is within reach. -/
theorem circleRect_iff_intersect_witness :
    ((0 : ℚ) ≤ 9 ∧ (0 : ℚ) ≤ 12 ∧ (0 : ℚ) ≤ 110) ∧
    (circleRectCollision (30 : ℚ) 215 9 12 100 12 110 = true ↔
      ∃ px py : ℚ, 12 ≤ px ∧ px ≤ 12 + 12 ∧ 100 ≤ py ∧ py ≤ 100 + 110 ∧
        (30 - px) ^ 2 + (215 - py) ^ 2 ≤ 9 ^ 2) ∧
    circleRectCollision (30 : ℚ) 215 9 12 100 12 110 = true :=
  ⟨⟨by norm_num, by norm_num, by norm_num⟩,
    circleRect_iff_intersect 30 215 9 12 100 12 110 (by norm_num) (by norm_num)
      (by norm_num),
    by norm_num [circleRectCollision, clamp]⟩

/-- C16. Cancel-then-rearm of the serve timer, with the armed callbacks as the explicit
list `timers`: after the start of the script and any sequence of frames, timer
firings, inputs and restarts, at most one serve callback is armed and its handle is the
one stored in `serveTimeout` by the most recent `resetBall`; a further `resetBall`
leaves exactly its own callback armed; and running the callback of any other handle
(one armed by an earlier `resetBall`) changes nothing, so it cannot end the serve. -/
theorem serve_timer_single (F : Field α) (M : JSMath α) (u1 u2 : α)
    (es : List (Event α)) :
    (run F M (start F M u1 u2) es).timers.length ≤ 1 ∧
    (∀ i ∈ (run F M (start F M u1 u2) es).timers,
      (run F M (start F M u1 u2) es).serveTimeout = some i) ∧
    (∀ (u : α) (t : Bool),
      (resetBall F M u t (run F M (start F M u1 u2) es)).timers
        = [(run F M (start F M u1 u2) es).nextTimer] ∧
      (resetBall F M u t (run F M (start F M u1 u2) es)).serveTimeout
        = some (run F M (start F M u1 u2) es).nextTimer) ∧
    (∀ i : Nat, (run F M (start F M u1 u2) es).serveTimeout ≠ some i →
      serveEnd i (run F M (start F M u1 u2) es) = run F M (start F M u1 u2) es) := by
  have h := run_start_timersOk F M u1 u2 es
  exact ⟨h.1, h.2, fun u t => resetBall_timers F M u t _ h,
    fun i hi => serveEnd_of_stale i _ h hi⟩

/-- C14. Centre-hit scenario: in every state the script reaches (from a `resetBall` call,
by frames, serve-timer firings, inputs and restarts), for a non-serving tick in which
the ball collides with the player paddle only and with its centre exactly at the
paddle's vertical centre, whatever the incoming velocity `(vx, vy)` is, the velocity left
by the paddle blocks has `vy = 0` and `vx = min(1.05 * sqrt(vx^2 + vy^2), 12)`, which is
positive. Unless the field is at most 42.5 wide (then the ball re-placed at `x = 33.5`
is already past the right edge and the player scores), this is the velocity when
`update()` returns. -/
theorem centre_hit_velocity (F : Field ℝ) (s0 : Game ℝ) (u0 : ℝ) (toPlayer : Bool)
    (es : List (Event ℝ)) (u : ℝ)
    (hs : (run F realMath (resetBall F realMath u0 toPlayer s0) es).isServing = false)
    (hhit : hits F realMath (run F realMath (resetBall F realMath u0 toPlayer s0) es)
      .player = true)
    (hmiss : hits F realMath (run F realMath (resetBall F realMath u0 toPlayer s0) es)
      .computer = false)
    (hcentre : (beforePaddles F
        (run F realMath (resetBall F realMath u0 toPlayer s0) es)).ball.y
      = (beforePaddles F
        (run F realMath (resetBall F realMath u0 toPlayer s0) es)).paddle.player.y + 55) :
    (beforeScoring F realMath
      (run F realMath (resetBall F realMath u0 toPlayer s0) es)).ball.vy = 0 ∧
    (beforeScoring F realMath
      (run F realMath (resetBall F realMath u0 toPlayer s0) es)).ball.vx
      = min (21 / 20 * scalarSpeed realMath (beforePaddles F
          (run F realMath (resetBall F realMath u0 toPlayer s0) es)).ball) 12 ∧
    0 < (beforeScoring F realMath
      (run F realMath (resetBall F realMath u0 toPlayer s0) es)).ball.vx ∧
    (85 / 2 < F.W →
      (update F realMath u
        (run F realMath (resetBall F realMath u0 toPlayer s0) es)).ball.vy = 0 ∧
      (update F realMath u
        (run F realMath (resetBall F realMath u0 toPlayer s0) es)).ball.vx
        = min (21 / 20 * scalarSpeed realMath (beforePaddles F
            (run F realMath (resetBall F realMath u0 toPlayer s0) es)).ball) 12) := by
  have hok : SpeedOk (run F realMath (resetBall F realMath u0 toPlayer s0) es).ball :=
    run_invariant F realMath (fun s => SpeedOk s.ball)
      (fun s e h => step_speedOk F s e h) es _ (resetBall_speedOk F u0 toPlayer s0)
  have hsp := scalarSpeed_of_speedOk _ (beforePaddles_speedOk F _ hok)
  have hfast : 2 ≤ min (21 / 20 * scalarSpeed realMath (beforePaddles F
      (run F realMath (resetBall F realMath u0 toPlayer s0) es)).ball) 12 := by
    apply le_min
    · linarith [hsp.1]
    · norm_num
  obtain ⟨hbs, hvy, hvx⟩ := centre_hit_of_fast F _ hhit hmiss hcentre hfast
  rw [hbs]
  refine ⟨hvy, hvx, ?_, ?_⟩
  · rw [hvx]
    linarith
  · intro hW
    rw [update_of_player_only_hit F hW realMath u _ hs hhit hmiss]
    exact ⟨hvy, hvx⟩

/-- Witness for C14: the script started on the 100 x 500 canvas with a serve toward the
player at launch angle 0; after the serve callback and three frames the ball is at
`(35, 250)` with velocity `(-5, 0)`, and the next frame is a centre hit on the player
paddle only. -/
theorem centre_hit_velocity_witness :
    ((run field100 realMath (start field100 realMath (1 / 4) (1 / 2))
        [Event.serveTimer 0, Event.tick 0, Event.tick 0, Event.tick 0]).isServing = false ∧
      hits field100 realMath (run field100 realMath (start field100 realMath (1 / 4) (1 / 2))
        [Event.serveTimer 0, Event.tick 0, Event.tick 0, Event.tick 0]) .player = true ∧
      hits field100 realMath (run field100 realMath (start field100 realMath (1 / 4) (1 / 2))
        [Event.serveTimer 0, Event.tick 0, Event.tick 0, Event.tick 0]) .computer = false ∧
      (beforePaddles field100 (run field100 realMath
          (start field100 realMath (1 / 4) (1 / 2))
          [Event.serveTimer 0, Event.tick 0, Event.tick 0, Event.tick 0])).ball.y
        = (beforePaddles field100 (run field100 realMath
          (start field100 realMath (1 / 4) (1 / 2))
          [Event.serveTimer 0, Event.tick 0, Event.tick 0, Event.tick 0])).paddle.player.y
          + 55 ∧
      (85 / 2 : ℝ) < (field100 : Field ℝ).W) ∧
    (update field100 realMath 0 (run field100 realMath
      (start field100 realMath (1 / 4) (1 / 2))
      [Event.serveTimer 0, Event.tick 0, Event.tick 0, Event.tick 0])).ball.vy = 0 ∧
    (update field100 realMath 0 (run field100 realMath
      (start field100 realMath (1 / 4) (1 / 2))
      [Event.serveTimer 0, Event.tick 0, Event.tick 0, Event.tick 0])).ball.vx
      = min (21 / 20 * scalarSpeed realMath (beforePaddles field100 (run field100 realMath
          (start field100 realMath (1 / 4) (1 / 2))
          [Event.serveTimer 0, Event.tick 0, Event.tick 0, Event.tick 0])).ball) 12 := by
  have hS := run_to_flight100
  obtain ⟨h1, h2, h3, h4⟩ := flight100_trace
  rw [← hS] at h1 h2 h3 h4
  have hW : (85 / 2 : ℝ) < (field100 : Field ℝ).W := by norm_num [field100]
  have h := centre_hit_velocity field100 (initial field100) (1 / 2)
    (decide ((1 / 4 : ℝ) < 1 / 2))
    [Event.serveTimer 0, Event.tick 0, Event.tick 0, Event.tick 0] 0 h1 h3 h4 h2
  exact ⟨⟨h1, h3, h4, h2, hW⟩, (h.2.2.2 hW).1, (h.2.2.2 hW).2⟩

/-- C20. Speed stays between the base speed and the cap: in every state reached from a
`resetBall` call (any prior state, any draw, either side) by a finite sequence of frames,
serve-timer firings, pointer and key inputs and restarts, the velocity of the ball
satisfies `5 ≤ sqrt(vx^2 + vy^2) ≤ 12`. Each paddle block keeps these bounds, so the
forced `|vx| = 2` never lifts the speed above 12 and no bounce brings it below 5. -/
theorem speed_within_bounds (F : Field ℝ) (s0 : Game ℝ) (u0 : ℝ) (toPlayer : Bool)
    (es : List (Event ℝ)) :
    (5 ≤ scalarSpeed realMath (run F realMath (resetBall F realMath u0 toPlayer s0) es).ball ∧
      scalarSpeed realMath (run F realMath (resetBall F realMath u0 toPlayer s0) es).ball
        ≤ 12) ∧
    (∀ s : Game ℝ, 5 ≤ scalarSpeed realMath s.ball ∧ scalarSpeed realMath s.ball ≤ 12 →
      (5 ≤ scalarSpeed realMath (playerBounce realMath s).ball ∧
        scalarSpeed realMath (playerBounce realMath s).ball ≤ 12) ∧
      (5 ≤ scalarSpeed realMath (computerBounce F realMath s).ball ∧
        scalarSpeed realMath (computerBounce F realMath s).ball ≤ 12)) := by
  constructor
  · apply scalarSpeed_of_speedOk
    exact run_invariant F realMath (fun s => SpeedOk s.ball)
      (fun s e hs => step_speedOk F s e hs) es _ (resetBall_speedOk F u0 toPlayer s0)
  · intro s hs
    have hok : SpeedOk s.ball := speedOk_of_scalarSpeed s.ball hs
    exact ⟨scalarSpeed_of_speedOk _ (playerBounce_speedOk s hok),
      scalarSpeed_of_speedOk _ (computerBounce_speedOk F s hok)⟩

/-- Witness for C20: the script started with a serve toward the player, the serve timer
fires and two frames run; and the player-paddle block applied to the state of `centreHit`
before the paddle tests, whose speed is 5. -/
theorem speed_within_bounds_witness :
    (5 ≤ scalarSpeed realMath (run field800 realMath
        (resetBall field800 realMath (1 / 2) true (initial field800))
        [Event.serveTimer 0, Event.tick 0, Event.tick 0]).ball ∧
      scalarSpeed realMath (run field800 realMath
        (resetBall field800 realMath (1 / 2) true (initial field800))
        [Event.serveTimer 0, Event.tick 0, Event.tick 0]).ball ≤ 12) ∧
    (5 ≤ scalarSpeed realMath (beforePaddles field800 (centreHit : Game ℝ)).ball ∧
      scalarSpeed realMath (beforePaddles field800 (centreHit : Game ℝ)).ball ≤ 12) ∧
    (5 ≤ scalarSpeed realMath
        (playerBounce realMath (beforePaddles field800 (centreHit : Game ℝ))).ball ∧
      scalarSpeed realMath
        (playerBounce realMath (beforePaddles field800 (centreHit : Game ℝ))).ball ≤ 12) := by
  obtain ⟨_, _, hvx, hvy, _, _, _⟩ := centreHit_trace
  have hsp : scalarSpeed realMath (beforePaddles field800 (centreHit : Game ℝ)).ball = 5 := by
    apply scalarSpeed_of_five
    rw [hvx, hvy]
    norm_num
  have hin : 5 ≤ scalarSpeed realMath (beforePaddles field800 (centreHit : Game ℝ)).ball ∧
      scalarSpeed realMath (beforePaddles field800 (centreHit : Game ℝ)).ball ≤ 12 := by
    rw [hsp]
    norm_num
  have h := speed_within_bounds field800 (initial field800) (1 / 2) true
    [Event.serveTimer 0, Event.tick 0, Event.tick 0]
  exact ⟨h.1, hin, (h.2 _ hin).1⟩

end Claims

end Pong
